import Mathlib

/-!
Verification development for the Insight Extraction & Compression Engine
(app/services/memory_service.py together with app/models/memory.py).

The per-module compression pipelines are embedded as pure Lean functions:
Python dicts built by repeated insertion are modelled as association lists
whose keys appear in first-insertion order, numeric scores and averages are
modelled with rationals, JSON null values with Option, and the external
AI summarizer with an explicit outcome datatype.  The database-backed
service state (one student) is a record holding the optional memory board
and the per-module insight lists in insertion order; each service method
becomes a state-passing function, one method call being one atomic step,
which matches the single session commit at the end of each method.
-/

namespace AvatarEdu

/-- Keys of a Python dict built by repeated insertion, in first-insertion
order (models the iteration order of a CPython dict). -/
def distinctKeys (ws : List String) : List String :=
  ws.foldl (fun acc w => if w ∈ acc then acc else acc ++ [w]) []

/-- Result of the Python counting loop over a list of keys: each distinct key
in first-occurrence order, paired with the number of its occurrences. -/
def countsOf (ws : List String) : List (String × Nat) :=
  (distinctKeys ws).map (fun k => (k, ws.count k))

/-- Result of the Python grouping loop over keyed values: each distinct key in
first-occurrence order, paired with the list of values carried by the
occurrences of that key, in occurrence order. -/
def groupPairs {α : Type} (ps : List (String × α)) : List (String × List α) :=
  (distinctKeys (ps.map Prod.fst)).map
    (fun k => (k, (ps.filter (fun p => p.1 == k)).map Prod.snd))

/-- Python str.lower as used on the pronounced words, modelled by mapping the
ASCII lowercase conversion over the characters (the standard library mapping
over strings is defined by well-founded recursion on byte positions, which
does not reduce inside the kernel; this direct list form computes).  Python
also lowercases non-ASCII letters, a case no statement below exercises. -/
def lowerString (s : String) : String :=
  String.mk (s.data.map Char.toLower)

/-- Stable insertion of one element into a list ordered by descending key
frequency: the element lands after every element of frequency at least its
own, which is the relative order produced by the stable Python sorted with
reverse set. -/
def insertByFreq {α : Type} (f : α → Nat) (x : α) : List α → List α
  | [] => [x]
  | y :: ys => if f y < f x then x :: y :: ys else y :: insertByFreq f x ys

/-- Stable sort by descending frequency, models sorted with reverse in
Python. -/
def sortByFreqDesc {α : Type} (f : α → Nat) (l : List α) : List α :=
  l.foldl (fun acc x => insertByFreq f x acc) []

/-- Mean of a list of rational scores (the code divides sum by length; the
code path never divides by zero on nonempty groups, and the conversation
variant guards an empty list by returning 0, which coincides with rational
division by zero). -/
def avgOf (accs : List ℚ) : ℚ := accs.sum / accs.length

/-- The shared priority rule used by the 2/3 threshold lists: high at
frequency three or more, medium otherwise. -/
def priorityFor (n : Nat) : String := if 3 ≤ n then "high" else "medium"

/-- Priority rule used by the conversation lists that promote to high already
at frequency two. -/
def convPriority2 (n : Nat) : String := if 2 ≤ n then "high" else "medium"

/-- Python round to one decimal digit, modelled as floor of ten times the
value plus one half; CPython rounds a float half-to-even, but the tie case is
not load-bearing for any statement below. -/
def roundTo1 (x : ℚ) : ℚ := ((10 * x + 1 / 2).floor : ℚ) / 10

/-- Outcome of the optional call to the external summarizer: a content string
(covers both the dict-with-content and the plain-string response shapes,
which the code strips identically), a response of unexpected shape, or a
raised exception / timeout. -/
inductive AiResult where
  | content (s : String)
  | malformed
  | failure
deriving DecidableEq, Repr

/-- The summary field written by every compression function: absent when the
AI step is disabled, the stripped response on success, the constant string on
a malformed response, and the module fallback string when the call raises. -/
def summaryField (useAi : Bool) (ai : AiResult) (fallback : String) : Option String :=
  if useAi then
    match ai with
    | .content s => some s.trim
    | .malformed => some "Analysis complete"
    | .failure => some fallback
  else none

/-! ## Reading module -/

/-- One vocabulary interaction record inside a reading insight; only the word
field is consulted by compression. -/
structure VocabMistake where
  word : String
  difficulty : Option Nat
  lookup_count : Nat
deriving DecidableEq, Repr

/-- Entry of the reading vocabulary gap list. -/
structure VocabGap where
  word : String
  frequency : Nat
  priority : String
deriving DecidableEq, Repr

/-- Entry of a comprehension weakness list (reading and listening). -/
structure SkillWeakness where
  skill : String
  frequency : Nat
  priority : String
deriving DecidableEq, Repr

/-- Compression-relevant fields of one ReadingMemoryInsight row.  Fields the
compression loop aggregates but never reads afterwards (difficult words,
repeated lookups, question records, chatbot records, engagement and text
metadata) are elided: they have no observable effect on any embedded
operation. -/
structure ReadingInsightData where
  vocabulary_mistakes : List VocabMistake
  question_types_struggled : List String
  reading_speed_issue : Bool
  completion_rate : ℚ
deriving DecidableEq, Repr

/-- The chronic vocabulary gap computation of compress_reading_memory: count
occurrences of each nonempty word over the flattened mistake lists, keep
counts of at least two, priority high from three occurrences. -/
def chronicVocabularyGaps (mistakes : List VocabMistake) : List VocabGap :=
  let words := (mistakes.map (·.word)).filter (fun w => w != "")
  (countsOf words).filterMap
    (fun kc => if 2 ≤ kc.2 then some ⟨kc.1, kc.2, priorityFor kc.2⟩ else none)

/-- The comprehension weakness computation shared by the reading and
listening compressors: every question type is kept, with no minimum
frequency and no emptiness filter. -/
def comprehensionWeaknesses (qtypes : List String) : List SkillWeakness :=
  (countsOf qtypes).map (fun kc => ⟨kc.1, kc.2, priorityFor kc.2⟩)

/-- The compressed reading payload written into the memory board. -/
structure ReadingPayload where
  vocabulary_gaps : List VocabGap
  comprehension_weaknesses : List SkillWeakness
  reading_speed_issue : Bool
  completion_issue : Bool
  total_sessions_analyzed : Nat
  last_compressed_at : Nat
  summary : Option String
deriving DecidableEq, Repr

/-- Fallback summary of the reading compressor. -/
def readingFallback (n : Nat) : String :=
  "Analyzed " ++ toString n ++ " sessions. Focus on vocabulary reinforcement and comprehension practice."

/-- Pure payload construction of compress_reading_memory over the batch of
consumed insights (newest first, as fetched by the descending query). -/
def buildReadingPayload (insights : List ReadingInsightData) (useAi : Bool)
    (ai : AiResult) (t : Nat) : ReadingPayload :=
  let allMistakes := (insights.map (·.vocabulary_mistakes)).flatten
  let allQTypes := (insights.map (·.question_types_struggled)).flatten
  let speedCount := (insights.filter (·.reading_speed_issue)).length
  let lowCompletion := (insights.filter (fun i => decide (i.completion_rate < 80))).length
  { vocabulary_gaps := (chronicVocabularyGaps allMistakes).take 10
    comprehension_weaknesses := comprehensionWeaknesses allQTypes
    reading_speed_issue := decide (((insights.length : ℚ) / 2) < (speedCount : ℚ))
    completion_issue := decide (((insights.length : ℚ) / 2) < (lowCompletion : ℚ))
    total_sessions_analyzed := insights.length
    last_compressed_at := t
    summary := summaryField useAi ai (readingFallback insights.length) }

/-! ## Listening module -/

/-- Compression-relevant fields of one ListeningMemoryInsight row; question
records and audio metadata that the compressor aggregates but never reads are
elided. -/
structure ListeningInsightData where
  question_types_struggled : List String
  audio_speed_issue : Bool
deriving DecidableEq, Repr

/-- The compressed listening payload. -/
structure ListeningPayload where
  comprehension_weaknesses : List SkillWeakness
  audio_speed_issue : Bool
  total_sessions_analyzed : Nat
  last_compressed_at : Nat
  summary : Option String
deriving DecidableEq, Repr

/-- Fallback summary of the listening compressor. -/
def listeningFallback (n : Nat) : String :=
  "Analyzed " ++ toString n ++ " sessions. Focus on comprehension practice."

/-- Pure payload construction of compress_listening_memory. -/
def buildListeningPayload (insights : List ListeningInsightData) (useAi : Bool)
    (ai : AiResult) (t : Nat) : ListeningPayload :=
  let allQTypes := (insights.map (·.question_types_struggled)).flatten
  let speedCount := (insights.filter (·.audio_speed_issue)).length
  { comprehension_weaknesses := comprehensionWeaknesses allQTypes
    audio_speed_issue := decide (((insights.length : ℚ) / 2) < (speedCount : ℚ))
    total_sessions_analyzed := insights.length
    last_compressed_at := t
    summary := summaryField useAi ai (listeningFallback insights.length) }

/-! ## Speaking module -/

/-- One mispronounced word record (word, accuracy score, error type). -/
structure MispronouncedWord where
  word : String
  accuracy : ℚ
  error_type : String
deriving DecidableEq, Repr

/-- One phoneme error record. -/
structure PhonemeError where
  phoneme : String
  accuracy : ℚ
deriving DecidableEq, Repr

/-- Entry of the chronic pronunciation error list. -/
structure ChronicWord where
  word : String
  frequency : Nat
  avg_accuracy : ℚ
  priority : String
deriving DecidableEq, Repr

/-- Entry of a problem phoneme list (speaking and conversation). -/
structure ProblemPhoneme where
  phoneme : String
  frequency : Nat
  avg_accuracy : ℚ
  priority : String
deriving DecidableEq, Repr

/-- Entry of the speaking fluency pattern list (no priority field in the
source payload). -/
structure FluencyIssueCount where
  issue : String
  frequency : Nat
deriving DecidableEq, Repr

/-- Compression-relevant fields of one SpeakingMemoryInsight row; accuracy
scores and practice level are elided as the compressor never reads them. -/
structure SpeakingInsightData where
  mispronounced_words : List MispronouncedWord
  phoneme_errors : List PhonemeError
  fluency_problems : List String
deriving DecidableEq, Repr

/-- The chronic word computation of compress_speaking_memory: group the
accuracy scores by lowercased nonempty word over the flattened lists, keep
groups of size at least two, average the scores, priority high from three. -/
def chronicWordsOf (ws : List MispronouncedWord) : List ChronicWord :=
  let pairs := (ws.map (fun w => (lowerString w.word, w.accuracy))).filter (fun p => p.1 != "")
  (groupPairs pairs).filterMap
    (fun g => if 2 ≤ g.2.length then
        some ⟨g.1, g.2.length, avgOf g.2, priorityFor g.2.length⟩
      else none)

/-- The problem phoneme computation of compress_speaking_memory. -/
def problemPhonemesOf (ps : List PhonemeError) : List ProblemPhoneme :=
  let pairs := (ps.map (fun p => (p.phoneme, p.accuracy))).filter (fun p => p.1 != "")
  (groupPairs pairs).filterMap
    (fun g => if 2 ≤ g.2.length then
        some ⟨g.1, g.2.length, avgOf g.2, priorityFor g.2.length⟩
      else none)

/-- The fluency pattern computation of compress_speaking_memory: plain counts
with no emptiness filter, kept at frequency two and above. -/
def fluencyPatternsOf (issues : List String) : List FluencyIssueCount :=
  (countsOf issues).filterMap
    (fun kc => if 2 ≤ kc.2 then some ⟨kc.1, kc.2⟩ else none)

/-- The compressed speaking payload. -/
structure SpeakingPayload where
  chronic_pronunciation_errors : List ChronicWord
  problem_phonemes : List ProblemPhoneme
  fluency_patterns : List FluencyIssueCount
  total_sessions_analyzed : Nat
  last_compressed_at : Nat
  summary : Option String
deriving DecidableEq, Repr

/-- Fallback summary of the speaking compressor. -/
def speakingFallback (n : Nat) : String :=
  "Analyzed " ++ toString n ++ " sessions. Focus on pronunciation practice."

/-- Pure payload construction of compress_speaking_memory. -/
def buildSpeakingPayload (insights : List SpeakingInsightData) (useAi : Bool)
    (ai : AiResult) (t : Nat) : SpeakingPayload :=
  let allMis := (insights.map (·.mispronounced_words)).flatten
  let allPh := (insights.map (·.phoneme_errors)).flatten
  let allFl := (insights.map (·.fluency_problems)).flatten
  { chronic_pronunciation_errors := (chronicWordsOf allMis).take 10
    problem_phonemes := (problemPhonemesOf allPh).take 10
    fluency_patterns := fluencyPatternsOf allFl
    total_sessions_analyzed := insights.length
    last_compressed_at := t
    summary := summaryField useAi ai (speakingFallback insights.length) }

/-! ## Writing module -/

/-- One grammar error record of a writing insight; the compressor reads the
type key (the source substitutes the string unknown for a missing key, which
a caller of the embedding passes explicitly) and the original text, empty
when absent. -/
structure GrammarErrorRec where
  type : String
  original : String
deriving DecidableEq, Repr

/-- Entry of the writing chronic grammar error list. -/
structure ChronicGrammarError where
  error_type : String
  frequency : Nat
  examples : List String
  priority : String
deriving DecidableEq, Repr

/-- Entry of an issue-keyed frequency list (writing style and vocabulary,
conversation fluency). -/
structure IssueCountPriority where
  issue : String
  frequency : Nat
  priority : String
deriving DecidableEq, Repr

/-- Entry of the writing content pattern list. -/
structure AreaCountPriority where
  area : String
  frequency : Nat
  priority : String
deriving DecidableEq, Repr

/-- Compression-relevant fields of one WritingMemoryInsight row.  The style,
vocabulary and content records are kept as their keyed field only (issue or
area), the single field the compressor consults; writing type, topic and the
on-topic flag are elided. -/
structure WritingInsightData where
  grammar_errors : List GrammarErrorRec
  style_issues : List String
  vocabulary_issues : List String
  content_weaknesses : List String
  overall_score : Option Int
deriving DecidableEq, Repr

/-- The chronic grammar error computation of compress_writing_memory: group
whole error records by nonempty type, keep groups of size two and above, keep
as examples the nonempty originals of the first three records. -/
def chronicGrammarErrorsOf (errs : List GrammarErrorRec) : List ChronicGrammarError :=
  let keyed := (errs.map (fun e => (e.type, e))).filter (fun p => p.1 != "")
  (groupPairs keyed).filterMap
    (fun g => if 2 ≤ g.2.length then
        some ⟨g.1, g.2.length,
          ((g.2.take 3).filter (fun e => e.original != "")).map (·.original),
          priorityFor g.2.length⟩
      else none)

/-- The recurring issue computation shared by the writing style and writing
vocabulary lists: count nonempty issue keys, keep frequency two and above. -/
def recurringIssuesOf (issues : List String) : List IssueCountPriority :=
  (countsOf (issues.filter (fun s => s != ""))).filterMap
    (fun kc => if 2 ≤ kc.2 then some ⟨kc.1, kc.2, priorityFor kc.2⟩ else none)

/-- The content pattern computation of compress_writing_memory. -/
def contentPatternsOf (areas : List String) : List AreaCountPriority :=
  (countsOf (areas.filter (fun s => s != ""))).filterMap
    (fun kc => if 2 ≤ kc.2 then some ⟨kc.1, kc.2, priorityFor kc.2⟩ else none)

/-- The compressed writing payload. -/
structure WritingPayload where
  chronic_grammar_errors : List ChronicGrammarError
  recurring_style_issues : List IssueCountPriority
  vocabulary_weaknesses : List IssueCountPriority
  content_patterns : List AreaCountPriority
  average_score : ℚ
  total_sessions_analyzed : Nat
  last_compressed_at : Nat
  summary : Option String
deriving DecidableEq, Repr

/-- Fallback summary of the writing compressor. -/
def writingFallback (n : Nat) : String :=
  "Analyzed " ++ toString n ++ " sessions. Focus on grammar and style improvement."

/-- Pure payload construction of compress_writing_memory.  Scores that are
null or zero are dropped by the Python truthiness test before averaging. -/
def buildWritingPayload (insights : List WritingInsightData) (useAi : Bool)
    (ai : AiResult) (t : Nat) : WritingPayload :=
  let allGrammar := (insights.map (·.grammar_errors)).flatten
  let allStyle := (insights.map (·.style_issues)).flatten
  let allVocab := (insights.map (·.vocabulary_issues)).flatten
  let allContent := (insights.map (·.content_weaknesses)).flatten
  let scores := insights.filterMap
    (fun i => i.overall_score.bind (fun n => if n = 0 then none else some n))
  let avg : ℚ := if scores.length = 0 then 0
    else (scores.map (fun n => (n : ℚ))).sum / (scores.length : ℚ)
  { chronic_grammar_errors :=
      (sortByFreqDesc (·.frequency) (chronicGrammarErrorsOf allGrammar)).take 10
    recurring_style_issues :=
      (sortByFreqDesc (·.frequency) (recurringIssuesOf allStyle)).take 10
    vocabulary_weaknesses := (recurringIssuesOf allVocab).take 10
    content_patterns := (contentPatternsOf allContent).take 10
    average_score := roundTo1 avg
    total_sessions_analyzed := insights.length
    last_compressed_at := t
    summary := summaryField useAi ai (writingFallback insights.length) }

/-! ## Conversation module -/

/-- One grammar error record of a conversation insight; the field holding
the JSON key example is written with a trailing tick because the plain word
is reserved in Lean. -/
structure ConvGrammarError where
  type : String
  example' : String
  correction : String
deriving DecidableEq, Repr

/-- Entry of the conversation chronic grammar error list. -/
structure ConvChronicGrammarError where
  error_type : String
  frequency : Nat
  examples : List String
  corrections : List String
  priority : String
deriving DecidableEq, Repr

/-- One vocabulary gap record of a conversation insight; the issue text is
elided as the compressor reads only word and context. -/
structure ConvVocabGap where
  word : String
  context : String
deriving DecidableEq, Repr

/-- Entry of the conversation vocabulary gap list. -/
structure ConvChronicVocabGap where
  word : String
  frequency : Nat
  contexts : List String
  priority : String
deriving DecidableEq, Repr

/-- Entry of the conversation topic struggle list. -/
structure TopicCountPriority where
  topic : String
  frequency : Nat
  priority : String
deriving DecidableEq, Repr

/-- Entry of the conversation chronic mispronunciation list. -/
structure ChronicMispronunciation where
  word : String
  frequency : Nat
  avg_accuracy : ℚ
  priority : String
deriving DecidableEq, Repr

/-- Compression-relevant fields of one ConversationMemoryInsight row; topic,
engagement, pronunciation score dict and per-message metrics that the
compressor never reads are elided apart from the two summed counters. -/
structure ConversationInsightData where
  grammar_errors : List ConvGrammarError
  vocabulary_gaps : List ConvVocabGap
  fluency_issues : List String
  topic_struggles : List String
  mispronounced_words : List MispronouncedWord
  phoneme_errors : List PhonemeError
  total_messages : Nat
  total_words : Nat
deriving DecidableEq, Repr

/-- The chronic grammar error computation of compress_conversation_memory. -/
def convChronicGrammarErrorsOf (errs : List ConvGrammarError) : List ConvChronicGrammarError :=
  let keyed := (errs.map (fun e => (e.type, e))).filter (fun p => p.1 != "")
  (groupPairs keyed).filterMap
    (fun g => if 2 ≤ g.2.length then
        some ⟨g.1, g.2.length,
          ((g.2.take 3).filter (fun e => e.example' != "")).map (·.example'),
          ((g.2.take 3).filter (fun e => e.correction != "")).map (·.correction),
          priorityFor g.2.length⟩
      else none)

/-- The vocabulary gap computation of compress_conversation_memory: every
group of size at least one is kept and priority is high already at two. -/
def convChronicVocabGapsOf (gaps : List ConvVocabGap) : List ConvChronicVocabGap :=
  let keyed := (gaps.map (fun g => (g.word, g))).filter (fun p => p.1 != "")
  (groupPairs keyed).filterMap
    (fun g => if 1 ≤ g.2.length then
        some ⟨g.1, g.2.length,
          ((g.2.take 2).filter (fun x => x.context != "")).map (·.context),
          convPriority2 g.2.length⟩
      else none)

/-- The fluency pattern computation of compress_conversation_memory: counts
with no emptiness filter, kept at two and above, priority high from three. -/
def convFluencyPatternsOf (issues : List String) : List IssueCountPriority :=
  (countsOf issues).filterMap
    (fun kc => if 2 ≤ kc.2 then some ⟨kc.1, kc.2, priorityFor kc.2⟩ else none)

/-- The topic struggle computation of compress_conversation_memory: every
topic is kept and priority is high already at two. -/
def convTopicPatternsOf (topics : List String) : List TopicCountPriority :=
  (countsOf topics).filterMap
    (fun kc => if 1 ≤ kc.2 then some ⟨kc.1, kc.2, convPriority2 kc.2⟩ else none)

/-- The chronic mispronunciation computation of compress_conversation_memory:
like the speaking variant but every group is kept and priority is high
already at two. -/
def convChronicMispronunciationsOf (ws : List MispronouncedWord) : List ChronicMispronunciation :=
  let pairs := (ws.map (fun w => (lowerString w.word, w.accuracy))).filter (fun p => p.1 != "")
  (groupPairs pairs).filterMap
    (fun g => if 1 ≤ g.2.length then
        some ⟨g.1, g.2.length, avgOf g.2, convPriority2 g.2.length⟩
      else none)

/-- The problem phoneme computation of compress_conversation_memory. -/
def convProblemPhonemesOf (ps : List PhonemeError) : List ProblemPhoneme :=
  let pairs := (ps.map (fun p => (p.phoneme, p.accuracy))).filter (fun p => p.1 != "")
  (groupPairs pairs).filterMap
    (fun g => if 1 ≤ g.2.length then
        some ⟨g.1, g.2.length, avgOf g.2, convPriority2 g.2.length⟩
      else none)

/-- The compressed conversation payload. -/
structure ConversationPayload where
  chronic_grammar_errors : List ConvChronicGrammarError
  vocabulary_gaps : List ConvChronicVocabGap
  fluency_patterns : List IssueCountPriority
  topic_struggles : List TopicCountPriority
  chronic_mispronunciations : List ChronicMispronunciation
  problem_phonemes : List ProblemPhoneme
  avg_words_per_session : ℚ
  total_sessions_analyzed : Nat
  last_compressed_at : Nat
  summary : Option String
deriving DecidableEq, Repr

/-- Fallback summary of the conversation compressor. -/
def conversationFallback (n : Nat) : String :=
  "Analyzed " ++ toString n ++ " sessions. Focus on grammar and fluency improvement."

/-- Pure payload construction of compress_conversation_memory. -/
def buildConversationPayload (insights : List ConversationInsightData) (useAi : Bool)
    (ai : AiResult) (t : Nat) : ConversationPayload :=
  let allGrammar := (insights.map (·.grammar_errors)).flatten
  let allGaps := (insights.map (·.vocabulary_gaps)).flatten
  let allFluency := (insights.map (·.fluency_issues)).flatten
  let allTopics := (insights.map (·.topic_struggles)).flatten
  let allMis := (insights.map (·.mispronounced_words)).flatten
  let allPh := (insights.map (·.phoneme_errors)).flatten
  let totalWords := (insights.map (·.total_words)).sum
  let avgWords : ℚ := if insights.length = 0 then 0
    else (totalWords : ℚ) / (insights.length : ℚ)
  { chronic_grammar_errors :=
      (sortByFreqDesc (·.frequency) (convChronicGrammarErrorsOf allGrammar)).take 10
    vocabulary_gaps :=
      (sortByFreqDesc (·.frequency) (convChronicVocabGapsOf allGaps)).take 10
    fluency_patterns := (convFluencyPatternsOf allFluency).take 10
    topic_struggles := (convTopicPatternsOf allTopics).take 10
    chronic_mispronunciations :=
      (sortByFreqDesc (·.frequency) (convChronicMispronunciationsOf allMis)).take 10
    problem_phonemes :=
      (sortByFreqDesc (·.frequency) (convProblemPhonemesOf allPh)).take 10
    avg_words_per_session := roundTo1 avgWords
    total_sessions_analyzed := insights.length
    last_compressed_at := t
    summary := summaryField useAi ai (conversationFallback insights.length) }

/-! ## Stored state and service operations -/

/-- One stored insight row: the immutable extracted data plus the one-way
compression flag pair and the creation timestamp. -/
structure Insight (α : Type) where
  data : α
  is_compressed : Bool
  compressed_at : Option Nat
  created_at : Nat
deriving DecidableEq, Repr

/-- The student memory board row: five payload slots (none models the empty
dict), five compression timestamps and five session counters.  The
overall_patterns slot is omitted because no embedded operation reads or
writes it after creation. -/
structure MemoryBoard where
  reading_memory : Option ReadingPayload
  listening_memory : Option ListeningPayload
  speaking_memory : Option SpeakingPayload
  writing_memory : Option WritingPayload
  conversation_memory : Option ConversationPayload
  reading_last_compressed_at : Option Nat
  listening_last_compressed_at : Option Nat
  speaking_last_compressed_at : Option Nat
  writing_last_compressed_at : Option Nat
  conversation_last_compressed_at : Option Nat
  reading_sessions_since_compression : Nat
  listening_sessions_since_compression : Nat
  speaking_sessions_since_compression : Nat
  writing_sessions_since_compression : Nat
  conversation_sessions_since_compression : Nat
deriving DecidableEq, Repr

/-- The board created lazily on first access: empty payload slots, no
compression timestamps, counters at zero. -/
def emptyBoard : MemoryBoard :=
  ⟨none, none, none, none, none, none, none, none, none, none, 0, 0, 0, 0, 0⟩

/-- The stored state of the service for one student: the optional memory
board and the five insight tables in insertion order.  Creation timestamps
are assumed nondecreasing along each list, so the descending-creation query
of the compressors is the reverse of the stored order. -/
structure ServiceState where
  board : Option MemoryBoard
  readingInsights : List (Insight ReadingInsightData)
  listeningInsights : List (Insight ListeningInsightData)
  speakingInsights : List (Insight SpeakingInsightData)
  writingInsights : List (Insight WritingInsightData)
  conversationInsights : List (Insight ConversationInsightData)
deriving DecidableEq, Repr

/-- get_or_create_memory_board: return the existing board, or create and
persist the empty one. -/
def getOrCreateBoard (s : ServiceState) : MemoryBoard × ServiceState :=
  match s.board with
  | some b => (b, s)
  | none => (emptyBoard, { s with board := some emptyBoard })

/-- The uncompressed rows of one insight table. -/
def uncompressed {α : Type} (l : List (Insight α)) : List (Insight α) :=
  l.filter (fun i => !i.is_compressed)

/-- The rows as returned by the descending-creation query: newest first. -/
def newestFirst {α : Type} (l : List (Insight α)) : List (Insight α) :=
  l.reverse

/-- The marking loop of a compressor: every uncompressed row is flagged
compressed with the compression timestamp; rows already compressed are left
untouched. -/
def markCompressed {α : Type} (t : Nat) (l : List (Insight α)) : List (Insight α) :=
  l.map (fun i =>
    if i.is_compressed then i
    else { i with is_compressed := true, compressed_at := some t })

/-- The compression trigger constant COMPRESSION_THRESHOLD. -/
def COMPRESSION_THRESHOLD : Nat := 5

/-- extract_reading_session_insights, reduced to its stored effect: append
one uncompressed insight and bump the reading counter on the (lazily
created) board.  The derivation of the insight data from the session rows is
upstream of every claim below and is taken as the argument. -/
def extractReading (d : ReadingInsightData) (t : Nat) (s : ServiceState) : ServiceState :=
  let s1 := { s with readingInsights := s.readingInsights ++ [⟨d, false, none, t⟩] }
  let (b, s2) := getOrCreateBoard s1
  { s2 with board := some { b with
      reading_sessions_since_compression := b.reading_sessions_since_compression + 1 } }

/-- extract_listening_session_insights, stored effect. -/
def extractListening (d : ListeningInsightData) (t : Nat) (s : ServiceState) : ServiceState :=
  let s1 := { s with listeningInsights := s.listeningInsights ++ [⟨d, false, none, t⟩] }
  let (b, s2) := getOrCreateBoard s1
  { s2 with board := some { b with
      listening_sessions_since_compression := b.listening_sessions_since_compression + 1 } }

/-- extract_speaking_session_insights, stored effect. -/
def extractSpeaking (d : SpeakingInsightData) (t : Nat) (s : ServiceState) : ServiceState :=
  let s1 := { s with speakingInsights := s.speakingInsights ++ [⟨d, false, none, t⟩] }
  let (b, s2) := getOrCreateBoard s1
  { s2 with board := some { b with
      speaking_sessions_since_compression := b.speaking_sessions_since_compression + 1 } }

/-- extract_writing_session_insights, stored effect. -/
def extractWriting (d : WritingInsightData) (t : Nat) (s : ServiceState) : ServiceState :=
  let s1 := { s with writingInsights := s.writingInsights ++ [⟨d, false, none, t⟩] }
  let (b, s2) := getOrCreateBoard s1
  { s2 with board := some { b with
      writing_sessions_since_compression := b.writing_sessions_since_compression + 1 } }

/-- extract_conversation_session_insights, stored effect. -/
def extractConversation (d : ConversationInsightData) (t : Nat) (s : ServiceState) : ServiceState :=
  let s1 := { s with conversationInsights := s.conversationInsights ++ [⟨d, false, none, t⟩] }
  let (b, s2) := getOrCreateBoard s1
  { s2 with board := some { b with
      conversation_sessions_since_compression := b.conversation_sessions_since_compression + 1 } }

/-- should_compress_reading_memory: ensure the board exists, then compare the
count of uncompressed reading insights against the threshold. -/
def shouldCompressReadingMemory (s : ServiceState) : Bool × ServiceState :=
  let (_, s1) := getOrCreateBoard s
  (decide (COMPRESSION_THRESHOLD ≤ (uncompressed s1.readingInsights).length), s1)

/-- should_compress_listening_memory. -/
def shouldCompressListeningMemory (s : ServiceState) : Bool × ServiceState :=
  let (_, s1) := getOrCreateBoard s
  (decide (COMPRESSION_THRESHOLD ≤ (uncompressed s1.listeningInsights).length), s1)

/-- should_compress_speaking_memory. -/
def shouldCompressSpeakingMemory (s : ServiceState) : Bool × ServiceState :=
  let (_, s1) := getOrCreateBoard s
  (decide (COMPRESSION_THRESHOLD ≤ (uncompressed s1.speakingInsights).length), s1)

/-- should_compress_writing_memory. -/
def shouldCompressWritingMemory (s : ServiceState) : Bool × ServiceState :=
  let (_, s1) := getOrCreateBoard s
  (decide (COMPRESSION_THRESHOLD ≤ (uncompressed s1.writingInsights).length), s1)

/-- should_compress_conversation_memory. -/
def shouldCompressConversationMemory (s : ServiceState) : Bool × ServiceState :=
  let (_, s1) := getOrCreateBoard s
  (decide (COMPRESSION_THRESHOLD ≤ (uncompressed s1.conversationInsights).length), s1)

/-- compress_reading_memory: empty no-op when nothing is uncompressed,
otherwise build the payload from the consumed batch, write the reading slot,
stamp the compression time, reset the counter and flag the batch compressed,
all in the single step that models the single session commit. -/
def compressReadingMemory (useAi : Bool) (ai : AiResult) (t : Nat)
    (s : ServiceState) : Option ReadingPayload × ServiceState :=
  let insights := newestFirst (uncompressed s.readingInsights)
  if insights.isEmpty then (none, s)
  else
    let payload := buildReadingPayload (insights.map (·.data)) useAi ai t
    let (b, s1) := getOrCreateBoard s
    (some payload,
      { s1 with
        board := some { b with
          reading_memory := some payload
          reading_last_compressed_at := some t
          reading_sessions_since_compression := 0 }
        readingInsights := markCompressed t s1.readingInsights })

/-- compress_listening_memory. -/
def compressListeningMemory (useAi : Bool) (ai : AiResult) (t : Nat)
    (s : ServiceState) : Option ListeningPayload × ServiceState :=
  let insights := newestFirst (uncompressed s.listeningInsights)
  if insights.isEmpty then (none, s)
  else
    let payload := buildListeningPayload (insights.map (·.data)) useAi ai t
    let (b, s1) := getOrCreateBoard s
    (some payload,
      { s1 with
        board := some { b with
          listening_memory := some payload
          listening_last_compressed_at := some t
          listening_sessions_since_compression := 0 }
        listeningInsights := markCompressed t s1.listeningInsights })

/-- compress_speaking_memory. -/
def compressSpeakingMemory (useAi : Bool) (ai : AiResult) (t : Nat)
    (s : ServiceState) : Option SpeakingPayload × ServiceState :=
  let insights := newestFirst (uncompressed s.speakingInsights)
  if insights.isEmpty then (none, s)
  else
    let payload := buildSpeakingPayload (insights.map (·.data)) useAi ai t
    let (b, s1) := getOrCreateBoard s
    (some payload,
      { s1 with
        board := some { b with
          speaking_memory := some payload
          speaking_last_compressed_at := some t
          speaking_sessions_since_compression := 0 }
        speakingInsights := markCompressed t s1.speakingInsights })

/-- compress_writing_memory. -/
def compressWritingMemory (useAi : Bool) (ai : AiResult) (t : Nat)
    (s : ServiceState) : Option WritingPayload × ServiceState :=
  let insights := newestFirst (uncompressed s.writingInsights)
  if insights.isEmpty then (none, s)
  else
    let payload := buildWritingPayload (insights.map (·.data)) useAi ai t
    let (b, s1) := getOrCreateBoard s
    (some payload,
      { s1 with
        board := some { b with
          writing_memory := some payload
          writing_last_compressed_at := some t
          writing_sessions_since_compression := 0 }
        writingInsights := markCompressed t s1.writingInsights })

/-- compress_conversation_memory. -/
def compressConversationMemory (useAi : Bool) (ai : AiResult) (t : Nat)
    (s : ServiceState) : Option ConversationPayload × ServiceState :=
  let insights := newestFirst (uncompressed s.conversationInsights)
  if insights.isEmpty then (none, s)
  else
    let payload := buildConversationPayload (insights.map (·.data)) useAi ai t
    let (b, s1) := getOrCreateBoard s
    (some payload,
      { s1 with
        board := some { b with
          conversation_memory := some payload
          conversation_last_compressed_at := some t
          conversation_sessions_since_compression := 0 }
        conversationInsights := markCompressed t s1.conversationInsights })

/-- get_reading_memory: board-creating read of the reading slot. -/
def getReadingMemory (s : ServiceState) : Option ReadingPayload × ServiceState :=
  let (b, s1) := getOrCreateBoard s
  (b.reading_memory, s1)

/-- get_listening_memory. -/
def getListeningMemory (s : ServiceState) : Option ListeningPayload × ServiceState :=
  let (b, s1) := getOrCreateBoard s
  (b.listening_memory, s1)

/-- get_speaking_memory. -/
def getSpeakingMemory (s : ServiceState) : Option SpeakingPayload × ServiceState :=
  let (b, s1) := getOrCreateBoard s
  (b.speaking_memory, s1)

/-- get_writing_memory. -/
def getWritingMemory (s : ServiceState) : Option WritingPayload × ServiceState :=
  let (b, s1) := getOrCreateBoard s
  (b.writing_memory, s1)

/-- get_conversation_memory. -/
def getConversationMemory (s : ServiceState) : Option ConversationPayload × ServiceState :=
  let (b, s1) := getOrCreateBoard s
  (b.conversation_memory, s1)

/-- The hint record returned by get_adaptive_question_focus.  The
memory_summary field is doubly optional: the outer none records that the
default branch returns a dict without the key, the inner option is the
stored summary, which may itself be null. -/
structure QuestionFocus where
  focus_topics : List String
  challenge_words : List String
  question_types_priority : List String
  difficulty_level : String
  memory_summary : Option (Option String)
deriving DecidableEq, Repr

/-- The safe default hints returned when no reading payload exists. -/
def defaultQuestionFocus : QuestionFocus :=
  ⟨[], [], ["inference", "main_idea", "detail", "vocabulary"], "intermediate", none⟩

/-- get_adaptive_question_focus: read the reading memory (which lazily
creates the board) and derive generation hints, or the safe defaults when
the payload is empty. -/
def getAdaptiveQuestionFocus (s : ServiceState) : QuestionFocus × ServiceState :=
  let (mem, s1) := getReadingMemory s
  match mem with
  | none => (defaultQuestionFocus, s1)
  | some m =>
    let challenge :=
      ((m.vocabulary_gaps.filter
          (fun g => g.priority == "high" || g.priority == "medium")).map (·.word)).take 5
    let prio :=
      (m.comprehension_weaknesses.filter (fun w => w.priority == "high")).map (·.skill)
    let prio := if prio.isEmpty then ["inference", "main_idea", "detail"] else prio
    let diff := if m.vocabulary_gaps.length < 3 then "advanced" else "intermediate"
    (⟨[], challenge, prio, diff, some m.summary⟩, s1)

/-- One service call, for quantifying over arbitrary operation sequences. -/
inductive Op where
  | extractReading (d : ReadingInsightData) (t : Nat)
  | extractListening (d : ListeningInsightData) (t : Nat)
  | extractSpeaking (d : SpeakingInsightData) (t : Nat)
  | extractWriting (d : WritingInsightData) (t : Nat)
  | extractConversation (d : ConversationInsightData) (t : Nat)
  | shouldCompressReading
  | shouldCompressListening
  | shouldCompressSpeaking
  | shouldCompressWriting
  | shouldCompressConversation
  | compressReading (useAi : Bool) (ai : AiResult) (t : Nat)
  | compressListening (useAi : Bool) (ai : AiResult) (t : Nat)
  | compressSpeaking (useAi : Bool) (ai : AiResult) (t : Nat)
  | compressWriting (useAi : Bool) (ai : AiResult) (t : Nat)
  | compressConversation (useAi : Bool) (ai : AiResult) (t : Nat)
  | readReadingMemory
  | readListeningMemory
  | readSpeakingMemory
  | readWritingMemory
  | readConversationMemory
  | adaptiveQuestionFocus

/-- The stored-state effect of one service call. -/
def applyOp (op : Op) (s : ServiceState) : ServiceState :=
  match op with
  | .extractReading d t => extractReading d t s
  | .extractListening d t => extractListening d t s
  | .extractSpeaking d t => extractSpeaking d t s
  | .extractWriting d t => extractWriting d t s
  | .extractConversation d t => extractConversation d t s
  | .shouldCompressReading => (shouldCompressReadingMemory s).2
  | .shouldCompressListening => (shouldCompressListeningMemory s).2
  | .shouldCompressSpeaking => (shouldCompressSpeakingMemory s).2
  | .shouldCompressWriting => (shouldCompressWritingMemory s).2
  | .shouldCompressConversation => (shouldCompressConversationMemory s).2
  | .compressReading u a t => (compressReadingMemory u a t s).2
  | .compressListening u a t => (compressListeningMemory u a t s).2
  | .compressSpeaking u a t => (compressSpeakingMemory u a t s).2
  | .compressWriting u a t => (compressWritingMemory u a t s).2
  | .compressConversation u a t => (compressConversationMemory u a t s).2
  | .readReadingMemory => (getReadingMemory s).2
  | .readListeningMemory => (getListeningMemory s).2
  | .readSpeakingMemory => (getSpeakingMemory s).2
  | .readWritingMemory => (getWritingMemory s).2
  | .readConversationMemory => (getConversationMemory s).2
  | .adaptiveQuestionFocus => (getAdaptiveQuestionFocus s).2

/-- The stored-state effect of a sequence of service calls. -/
def runOps (ops : List Op) (s : ServiceState) : ServiceState :=
  ops.foldl (fun st op => applyOp op st) s

/-- A sequence of reading extractions (data with creation time each). -/
def extractReadingMany (ds : List (ReadingInsightData × Nat)) (s : ServiceState) : ServiceState :=
  ds.foldl (fun st dt => extractReading dt.1 dt.2 st) s

/-- A sequence of listening extractions. -/
def extractListeningMany (ds : List (ListeningInsightData × Nat)) (s : ServiceState) : ServiceState :=
  ds.foldl (fun st dt => extractListening dt.1 dt.2 st) s

/-- A sequence of speaking extractions. -/
def extractSpeakingMany (ds : List (SpeakingInsightData × Nat)) (s : ServiceState) : ServiceState :=
  ds.foldl (fun st dt => extractSpeaking dt.1 dt.2 st) s

/-- A sequence of writing extractions. -/
def extractWritingMany (ds : List (WritingInsightData × Nat)) (s : ServiceState) : ServiceState :=
  ds.foldl (fun st dt => extractWriting dt.1 dt.2 st) s

/-- A sequence of conversation extractions. -/
def extractConversationMany (ds : List (ConversationInsightData × Nat)) (s : ServiceState) : ServiceState :=
  ds.foldl (fun st dt => extractConversation dt.1 dt.2 st) s

/-- The observable reading slice of the board: payload slot, compression
timestamp and session counter, with the values of a still-uncreated board
being those of the lazily created empty one. -/
def readingSlice (s : ServiceState) : Option ReadingPayload × Option Nat × Nat :=
  match s.board with
  | none => (none, none, 0)
  | some b => (b.reading_memory, b.reading_last_compressed_at,
      b.reading_sessions_since_compression)

/-- The observable listening slice of the board. -/
def listeningSlice (s : ServiceState) : Option ListeningPayload × Option Nat × Nat :=
  match s.board with
  | none => (none, none, 0)
  | some b => (b.listening_memory, b.listening_last_compressed_at,
      b.listening_sessions_since_compression)

/-- The observable speaking slice of the board. -/
def speakingSlice (s : ServiceState) : Option SpeakingPayload × Option Nat × Nat :=
  match s.board with
  | none => (none, none, 0)
  | some b => (b.speaking_memory, b.speaking_last_compressed_at,
      b.speaking_sessions_since_compression)

/-- The observable writing slice of the board. -/
def writingSlice (s : ServiceState) : Option WritingPayload × Option Nat × Nat :=
  match s.board with
  | none => (none, none, 0)
  | some b => (b.writing_memory, b.writing_last_compressed_at,
      b.writing_sessions_since_compression)

/-- The observable conversation slice of the board. -/
def conversationSlice (s : ServiceState) : Option ConversationPayload × Option Nat × Nat :=
  match s.board with
  | none => (none, none, 0)
  | some b => (b.conversation_memory, b.conversation_last_compressed_at,
      b.conversation_sessions_since_compression)

/-- Row-level preservation between two snapshots of one insight table: no
row disappears, every surviving row keeps its extracted data and creation
time, and a row once compressed stays compressed with its original
compression time. -/
def insightsPreserved {α : Type} (l l' : List (Insight α)) : Prop :=
  l.length ≤ l'.length ∧
  ∀ (i : Nat) (h : i < l.length) (h' : i < l'.length),
    l'[i].data = l[i].data ∧
    l'[i].created_at = l[i].created_at ∧
    (l[i].is_compressed = true →
      l'[i].is_compressed = true ∧ l'[i].compressed_at = l[i].compressed_at)

/-- Preservation across all five insight tables. -/
def statePreserved (s s' : ServiceState) : Prop :=
  insightsPreserved s.readingInsights s'.readingInsights ∧
  insightsPreserved s.listeningInsights s'.listeningInsights ∧
  insightsPreserved s.speakingInsights s'.speakingInsights ∧
  insightsPreserved s.writingInsights s'.writingInsights ∧
  insightsPreserved s.conversationInsights s'.conversationInsights

/-! ## Concrete states used by the closed statements -/

/-- The state of a brand new student: no board, no insights. -/
def freshState : ServiceState := ⟨none, [], [], [], [], []⟩

/-- A state with exactly one uncompressed insight in every module. -/
def oneEachState : ServiceState :=
  { board := none
    readingInsights := [⟨⟨[⟨"cat", none, 1⟩], ["detail"], false, 90⟩, false, none, 1⟩]
    listeningInsights := [⟨⟨["detail"], false⟩, false, none, 1⟩]
    speakingInsights := [⟨⟨[⟨"cat", 50, "unknown"⟩], [], []⟩, false, none, 1⟩]
    writingInsights := [⟨⟨[⟨"tense", "I goed"⟩], [], [], [], some 70⟩, false, none, 1⟩]
    conversationInsights := [⟨⟨[], [⟨"cat", "c"⟩], [], [], [], [], 3, 20⟩, false, none, 1⟩] }

/-- A compression run over one reading insight whose mistake list mentions
the same word twice: one insight, two occurrences. -/
def dupWordReadingState : ServiceState :=
  { freshState with
    readingInsights := [⟨⟨[⟨"cat", none, 1⟩, ⟨"cat", none, 2⟩], [], false, 90⟩, false, none, 1⟩] }

/-- A conversation run over one insight with a single vocabulary gap. -/
def singleGapConversationState : ServiceState :=
  { freshState with
    conversationInsights := [⟨⟨[], [⟨"dog", "ctx"⟩], [], [], [], [], 3, 20⟩, false, none, 1⟩] }

/-- A conversation run over two insights that each contain the same
vocabulary gap word once. -/
def doubleGapConversationState : ServiceState :=
  { freshState with
    conversationInsights :=
      [ ⟨⟨[], [⟨"dog", "c1"⟩], [], [], [], [], 3, 20⟩, false, none, 1⟩
      , ⟨⟨[], [⟨"dog", "c2"⟩], [], [], [], [], 3, 20⟩, false, none, 2⟩ ] }

/-- The speaking scenario of the specification: five uncompressed insights,
the word comfortable in the three most recent with accuracies 60, 65 and 68,
the word world in the two oldest with accuracies 80 and 82. -/
def speakingScenarioState : ServiceState :=
  { freshState with
    speakingInsights :=
      [ ⟨⟨[⟨"world", 80, "unknown"⟩], [], []⟩, false, none, 1⟩
      , ⟨⟨[⟨"world", 82, "unknown"⟩], [], []⟩, false, none, 2⟩
      , ⟨⟨[⟨"comfortable", 60, "unknown"⟩], [], []⟩, false, none, 3⟩
      , ⟨⟨[⟨"comfortable", 65, "unknown"⟩], [], []⟩, false, none, 4⟩
      , ⟨⟨[⟨"comfortable", 68, "unknown"⟩], [], []⟩, false, none, 5⟩ ] }

/-- A listening run over one insight with eleven distinct struggled question
types, the first appearing twice and the second three times, so the
comprehension weakness list of the payload is unsorted and longer than
ten. -/
def elevenTypesListeningState : ServiceState :=
  { freshState with
    listeningInsights :=
      [⟨⟨["t1", "t1", "t2", "t2", "t2", "u1", "u2", "u3", "u4", "u5", "u6", "u7", "u8", "u9"],
          false⟩, false, none, 1⟩] }

/-- A state whose board exists and is still empty. -/
def emptyBoardState : ServiceState := { freshState with board := some emptyBoard }

/-- Five fresh reading extractions (data and creation times). -/
def fiveReadingExtractions : List (ReadingInsightData × Nat) :=
  [(⟨[], [], false, 90⟩, 1), (⟨[], [], false, 90⟩, 2), (⟨[], [], false, 90⟩, 3),
   (⟨[], [], false, 90⟩, 4), (⟨[], [], false, 90⟩, 5)]

/-- Four fresh reading extractions. -/
def fourReadingExtractions : List (ReadingInsightData × Nat) :=
  [(⟨[], [], false, 90⟩, 1), (⟨[], [], false, 90⟩, 2), (⟨[], [], false, 90⟩, 3),
   (⟨[], [], false, 90⟩, 4)]

/-! ## Helper lemmas about the group-by model -/

theorem mem_foldl_distinct (ws : List String) (acc : List String) (k : String) :
    k ∈ ws.foldl (fun a w => if w ∈ a then a else a ++ [w]) acc ↔ k ∈ acc ∨ k ∈ ws := by
  induction ws generalizing acc with
  | nil => simp
  | cons w ws ih =>
    simp only [List.foldl_cons]
    rw [ih]
    by_cases h : w ∈ acc
    · rw [if_pos h]
      constructor
      · rintro (h1 | h1)
        · exact Or.inl h1
        · exact Or.inr (List.mem_cons_of_mem _ h1)
      · rintro (h1 | h1)
        · exact Or.inl h1
        · rcases List.mem_cons.mp h1 with rfl | h2
          · exact Or.inl h
          · exact Or.inr h2
    · rw [if_neg h]
      constructor
      · rintro (h1 | h1)
        · rcases List.mem_append.mp h1 with h2 | h2
          · exact Or.inl h2
          · exact Or.inr (List.mem_cons.mpr (Or.inl (List.mem_singleton.mp h2)))
        · exact Or.inr (List.mem_cons_of_mem _ h1)
      · rintro (h1 | h1)
        · exact Or.inl (List.mem_append.mpr (Or.inl h1))
        · rcases List.mem_cons.mp h1 with rfl | h2
          · exact Or.inl (List.mem_append.mpr (Or.inr (List.mem_singleton.mpr rfl)))
          · exact Or.inr h2

theorem mem_distinctKeys (ws : List String) (k : String) :
    k ∈ distinctKeys ws ↔ k ∈ ws := by
  unfold distinctKeys
  rw [mem_foldl_distinct]
  simp

theorem mem_countsOf (ws : List String) (k : String) (n : Nat) :
    (k, n) ∈ countsOf ws ↔ k ∈ ws ∧ n = ws.count k := by
  unfold countsOf
  constructor
  · intro hmem
    rcases List.mem_map.mp hmem with ⟨a, ha, he⟩
    have h1 : a = k := congrArg Prod.fst he
    subst h1
    exact ⟨(mem_distinctKeys _ _).mp ha, (congrArg Prod.snd he).symm⟩
  · rintro ⟨hk, rfl⟩
    exact List.mem_map.mpr ⟨k, (mem_distinctKeys _ _).mpr hk, rfl⟩

theorem mem_groupPairs {α : Type} (ps : List (String × α)) (k : String) (g : List α) :
    (k, g) ∈ groupPairs ps ↔
      k ∈ ps.map Prod.fst ∧ g = (ps.filter (fun p => p.1 == k)).map Prod.snd := by
  unfold groupPairs
  constructor
  · intro hmem
    rcases List.mem_map.mp hmem with ⟨a, ha, he⟩
    have h1 : a = k := congrArg Prod.fst he
    subst h1
    exact ⟨(mem_distinctKeys _ _).mp ha, (congrArg Prod.snd he).symm⟩
  · rintro ⟨hk, rfl⟩
    exact List.mem_map.mpr ⟨k, (mem_distinctKeys _ _).mpr hk, rfl⟩

theorem count_filter_nonempty (l : List String) (k : String) (hk : k ≠ "") :
    (l.filter (fun w => w != "")).count k = l.count k :=
  List.count_filter (by simpa using hk)

/-! ## Helper lemmas about the stored state -/

theorem uncompressed_append {α : Type} (l m : List (Insight α)) :
    uncompressed (l ++ m) = uncompressed l ++ uncompressed m :=
  List.filter_append _ _

theorem uncompressed_markCompressed {α : Type} (t : Nat) (l : List (Insight α)) :
    uncompressed (markCompressed t l) = [] := by
  induction l with
  | nil => rfl
  | cons i l ih =>
    by_cases h : i.is_compressed
    · simpa [markCompressed, uncompressed, List.filter_cons, h] using ih
    · simpa [markCompressed, uncompressed, List.filter_cons, h] using ih

theorem newestFirst_isEmpty_false {α : Type} {l : List (Insight α)} (h : l ≠ []) :
    (newestFirst l).isEmpty = false := by
  rcases l with _ | ⟨x, xs⟩
  · exact absurd rfl h
  · have h2 : newestFirst (x :: xs) ≠ [] := by simp [newestFirst]
    rcases hnf : newestFirst (x :: xs) with _ | ⟨y, ys⟩
    · exact absurd hnf h2
    · rfl

theorem uncompressed_extractReading (d : ReadingInsightData) (t : Nat) (s : ServiceState) :
    uncompressed (extractReading d t s).readingInsights =
      uncompressed s.readingInsights ++ [⟨d, false, none, t⟩] := by
  unfold extractReading getOrCreateBoard
  cases s.board <;> simp [uncompressed_append, uncompressed]

theorem uncompressed_extractListening (d : ListeningInsightData) (t : Nat) (s : ServiceState) :
    uncompressed (extractListening d t s).listeningInsights =
      uncompressed s.listeningInsights ++ [⟨d, false, none, t⟩] := by
  unfold extractListening getOrCreateBoard
  cases s.board <;> simp [uncompressed_append, uncompressed]

theorem uncompressed_extractSpeaking (d : SpeakingInsightData) (t : Nat) (s : ServiceState) :
    uncompressed (extractSpeaking d t s).speakingInsights =
      uncompressed s.speakingInsights ++ [⟨d, false, none, t⟩] := by
  unfold extractSpeaking getOrCreateBoard
  cases s.board <;> simp [uncompressed_append, uncompressed]

theorem uncompressed_extractWriting (d : WritingInsightData) (t : Nat) (s : ServiceState) :
    uncompressed (extractWriting d t s).writingInsights =
      uncompressed s.writingInsights ++ [⟨d, false, none, t⟩] := by
  unfold extractWriting getOrCreateBoard
  cases s.board <;> simp [uncompressed_append, uncompressed]

theorem uncompressed_extractConversation (d : ConversationInsightData) (t : Nat) (s : ServiceState) :
    uncompressed (extractConversation d t s).conversationInsights =
      uncompressed s.conversationInsights ++ [⟨d, false, none, t⟩] := by
  unfold extractConversation getOrCreateBoard
  cases s.board <;> simp [uncompressed_append, uncompressed]

/-! ## Helper lemmas about row preservation -/

theorem markCompressed_getElem {α : Type} (t : Nat) (l : List (Insight α)) (i : Nat)
    (h : i < l.length) (h' : i < (markCompressed t l).length) :
    (markCompressed t l)[i] =
      if l[i].is_compressed then l[i]
      else { l[i] with is_compressed := true, compressed_at := some t } := by
  simp [markCompressed]

theorem insightsPreserved_refl {α : Type} (l : List (Insight α)) : insightsPreserved l l :=
  ⟨Nat.le_refl _, fun _ _ _ => ⟨rfl, rfl, fun hc => ⟨hc, rfl⟩⟩⟩

theorem insightsPreserved_trans {α : Type} {l₁ l₂ l₃ : List (Insight α)}
    (h12 : insightsPreserved l₁ l₂) (h23 : insightsPreserved l₂ l₃) :
    insightsPreserved l₁ l₃ := by
  refine ⟨Nat.le_trans h12.1 h23.1, ?_⟩
  intro i h h'
  have h2 : i < l₂.length := Nat.lt_of_lt_of_le h h12.1
  obtain ⟨hd12, hc12, hm12⟩ := h12.2 i h h2
  obtain ⟨hd23, hc23, hm23⟩ := h23.2 i h2 h'
  refine ⟨hd23.trans hd12, hc23.trans hc12, ?_⟩
  intro hc
  obtain ⟨ha, hb⟩ := hm12 hc
  obtain ⟨hc2, hd2⟩ := hm23 ha
  exact ⟨hc2, hd2.trans hb⟩

theorem insightsPreserved_append {α : Type} (l m : List (Insight α)) :
    insightsPreserved l (l ++ m) := by
  refine ⟨by simp, ?_⟩
  intro i h h'
  rw [List.getElem_append_left h]
  exact ⟨rfl, rfl, fun hc => ⟨hc, rfl⟩⟩

theorem insightsPreserved_markCompressed {α : Type} (t : Nat) (l : List (Insight α)) :
    insightsPreserved l (markCompressed t l) := by
  refine ⟨by simp [markCompressed], ?_⟩
  intro i h h'
  rw [markCompressed_getElem t l i h h']
  by_cases hc : l[i].is_compressed
  · rw [if_pos hc]
    exact ⟨rfl, rfl, fun h2 => ⟨h2, rfl⟩⟩
  · rw [if_neg hc]
    exact ⟨rfl, rfl, fun h2 => absurd h2 hc⟩

theorem statePreserved_refl (s : ServiceState) : statePreserved s s :=
  ⟨insightsPreserved_refl _, insightsPreserved_refl _, insightsPreserved_refl _,
   insightsPreserved_refl _, insightsPreserved_refl _⟩

theorem statePreserved_trans {s₁ s₂ s₃ : ServiceState}
    (h12 : statePreserved s₁ s₂) (h23 : statePreserved s₂ s₃) : statePreserved s₁ s₃ :=
  ⟨insightsPreserved_trans h12.1 h23.1,
   insightsPreserved_trans h12.2.1 h23.2.1,
   insightsPreserved_trans h12.2.2.1 h23.2.2.1,
   insightsPreserved_trans h12.2.2.2.1 h23.2.2.2.1,
   insightsPreserved_trans h12.2.2.2.2 h23.2.2.2.2⟩

theorem statePreserved_applyOp (op : Op) (s : ServiceState) :
    statePreserved s (applyOp op s) := by
  obtain ⟨bo, ri, li, si, wi, ci⟩ := s
  cases op with
  | extractReading d t =>
    cases bo <;>
      exact ⟨insightsPreserved_append _ _, insightsPreserved_refl _, insightsPreserved_refl _,
        insightsPreserved_refl _, insightsPreserved_refl _⟩
  | extractListening d t =>
    cases bo <;>
      exact ⟨insightsPreserved_refl _, insightsPreserved_append _ _, insightsPreserved_refl _,
        insightsPreserved_refl _, insightsPreserved_refl _⟩
  | extractSpeaking d t =>
    cases bo <;>
      exact ⟨insightsPreserved_refl _, insightsPreserved_refl _, insightsPreserved_append _ _,
        insightsPreserved_refl _, insightsPreserved_refl _⟩
  | extractWriting d t =>
    cases bo <;>
      exact ⟨insightsPreserved_refl _, insightsPreserved_refl _, insightsPreserved_refl _,
        insightsPreserved_append _ _, insightsPreserved_refl _⟩
  | extractConversation d t =>
    cases bo <;>
      exact ⟨insightsPreserved_refl _, insightsPreserved_refl _, insightsPreserved_refl _,
        insightsPreserved_refl _, insightsPreserved_append _ _⟩
  | shouldCompressReading => cases bo <;> exact statePreserved_refl _
  | shouldCompressListening => cases bo <;> exact statePreserved_refl _
  | shouldCompressSpeaking => cases bo <;> exact statePreserved_refl _
  | shouldCompressWriting => cases bo <;> exact statePreserved_refl _
  | shouldCompressConversation => cases bo <;> exact statePreserved_refl _
  | compressReading u a t =>
    show statePreserved _ (compressReadingMemory u a t _).2
    simp only [compressReadingMemory]
    by_cases he : (newestFirst (uncompressed ri)).isEmpty = true
    · rw [if_pos he]
      exact statePreserved_refl _
    · rw [if_neg he]
      cases bo <;>
        exact ⟨insightsPreserved_markCompressed _ _,
            insightsPreserved_refl _,
            insightsPreserved_refl _,
            insightsPreserved_refl _,
            insightsPreserved_refl _⟩
  | compressListening u a t =>
    show statePreserved _ (compressListeningMemory u a t _).2
    simp only [compressListeningMemory]
    by_cases he : (newestFirst (uncompressed li)).isEmpty = true
    · rw [if_pos he]
      exact statePreserved_refl _
    · rw [if_neg he]
      cases bo <;>
        exact ⟨insightsPreserved_refl _,
            insightsPreserved_markCompressed _ _,
            insightsPreserved_refl _,
            insightsPreserved_refl _,
            insightsPreserved_refl _⟩
  | compressSpeaking u a t =>
    show statePreserved _ (compressSpeakingMemory u a t _).2
    simp only [compressSpeakingMemory]
    by_cases he : (newestFirst (uncompressed si)).isEmpty = true
    · rw [if_pos he]
      exact statePreserved_refl _
    · rw [if_neg he]
      cases bo <;>
        exact ⟨insightsPreserved_refl _,
            insightsPreserved_refl _,
            insightsPreserved_markCompressed _ _,
            insightsPreserved_refl _,
            insightsPreserved_refl _⟩
  | compressWriting u a t =>
    show statePreserved _ (compressWritingMemory u a t _).2
    simp only [compressWritingMemory]
    by_cases he : (newestFirst (uncompressed wi)).isEmpty = true
    · rw [if_pos he]
      exact statePreserved_refl _
    · rw [if_neg he]
      cases bo <;>
        exact ⟨insightsPreserved_refl _,
            insightsPreserved_refl _,
            insightsPreserved_refl _,
            insightsPreserved_markCompressed _ _,
            insightsPreserved_refl _⟩
  | compressConversation u a t =>
    show statePreserved _ (compressConversationMemory u a t _).2
    simp only [compressConversationMemory]
    by_cases he : (newestFirst (uncompressed ci)).isEmpty = true
    · rw [if_pos he]
      exact statePreserved_refl _
    · rw [if_neg he]
      cases bo <;>
        exact ⟨insightsPreserved_refl _,
            insightsPreserved_refl _,
            insightsPreserved_refl _,
            insightsPreserved_refl _,
            insightsPreserved_markCompressed _ _⟩
  | readReadingMemory => cases bo <;> exact statePreserved_refl _
  | readListeningMemory => cases bo <;> exact statePreserved_refl _
  | readSpeakingMemory => cases bo <;> exact statePreserved_refl _
  | readWritingMemory => cases bo <;> exact statePreserved_refl _
  | readConversationMemory => cases bo <;> exact statePreserved_refl _
  | adaptiveQuestionFocus =>
    cases bo with
    | none => exact statePreserved_refl _
    | some b =>
      show statePreserved _ (getAdaptiveQuestionFocus _).2
      simp only [getAdaptiveQuestionFocus, getReadingMemory, getOrCreateBoard]
      cases b.reading_memory <;> exact statePreserved_refl _

theorem statePreserved_runOps (ops : List Op) (s : ServiceState) :
    statePreserved s (runOps ops s) := by
  induction ops generalizing s with
  | nil => exact statePreserved_refl s
  | cons op ops ih =>
    exact statePreserved_trans (statePreserved_applyOp op s) (ih (applyOp op s))

/-! ## Helper lemmas about the descending sort -/

theorem mem_insertByFreq {α : Type} (f : α → Nat) (x : α) (l : List α) (z : α) :
    z ∈ insertByFreq f x l ↔ z = x ∨ z ∈ l := by
  induction l with
  | nil => simp [insertByFreq]
  | cons y ys ih =>
    unfold insertByFreq
    split
    · simp [List.mem_cons]
    · simp only [List.mem_cons, ih]
      tauto

theorem sorted_insertByFreq {α : Type} (f : α → Nat) (x : α) (l : List α)
    (h : l.Sorted (fun a b => f b ≤ f a)) :
    (insertByFreq f x l).Sorted (fun a b => f b ≤ f a) := by
  induction l with
  | nil => simp [insertByFreq]
  | cons y ys ih =>
    rw [List.sorted_cons] at h
    unfold insertByFreq
    split
    · rename_i hlt
      rw [List.sorted_cons]
      constructor
      · intro b hb
        rcases List.mem_cons.mp hb with rfl | hb2
        · exact Nat.le_of_lt hlt
        · exact Nat.le_trans (h.1 b hb2) (Nat.le_of_lt hlt)
      · exact List.sorted_cons.mpr h
    · rename_i hge
      rw [List.sorted_cons]
      constructor
      · intro b hb
        rcases (mem_insertByFreq f x ys b).mp hb with rfl | hb2
        · exact Nat.le_of_not_lt hge
        · exact h.1 b hb2
      · exact ih h.2

theorem sorted_sortByFreqDesc {α : Type} (f : α → Nat) (l : List α) :
    (sortByFreqDesc f l).Sorted (fun a b => f b ≤ f a) := by
  unfold sortByFreqDesc
  suffices h : ∀ acc : List α, acc.Sorted (fun a b => f b ≤ f a) →
      (l.foldl (fun a x => insertByFreq f x a) acc).Sorted (fun a b => f b ≤ f a) by
    exact h [] (by simp)
  induction l with
  | nil => intro acc h; simpa using h
  | cons x xs ih =>
    intro acc h
    exact ih _ (sorted_insertByFreq f x acc h)

theorem sorted_take_sortByFreqDesc {α : Type} (f : α → Nat) (l : List α) (n : Nat) :
    ((sortByFreqDesc f l).take n).Sorted (fun a b => f b ≤ f a) :=
  List.Pairwise.sublist (List.take_sublist n _) (sorted_sortByFreqDesc f l)

/-! ## Helper lemmas about the trigger check and the no-op branch -/

theorem shouldCompressReading_val (s : ServiceState) :
    (shouldCompressReadingMemory s).1 =
      decide (COMPRESSION_THRESHOLD ≤ (uncompressed s.readingInsights).length) := by
  unfold shouldCompressReadingMemory getOrCreateBoard
  cases s.board <;> rfl

theorem shouldCompressListening_val (s : ServiceState) :
    (shouldCompressListeningMemory s).1 =
      decide (COMPRESSION_THRESHOLD ≤ (uncompressed s.listeningInsights).length) := by
  unfold shouldCompressListeningMemory getOrCreateBoard
  cases s.board <;> rfl

theorem shouldCompressSpeaking_val (s : ServiceState) :
    (shouldCompressSpeakingMemory s).1 =
      decide (COMPRESSION_THRESHOLD ≤ (uncompressed s.speakingInsights).length) := by
  unfold shouldCompressSpeakingMemory getOrCreateBoard
  cases s.board <;> rfl

theorem shouldCompressWriting_val (s : ServiceState) :
    (shouldCompressWritingMemory s).1 =
      decide (COMPRESSION_THRESHOLD ≤ (uncompressed s.writingInsights).length) := by
  unfold shouldCompressWritingMemory getOrCreateBoard
  cases s.board <;> rfl

theorem shouldCompressConversation_val (s : ServiceState) :
    (shouldCompressConversationMemory s).1 =
      decide (COMPRESSION_THRESHOLD ≤ (uncompressed s.conversationInsights).length) := by
  unfold shouldCompressConversationMemory getOrCreateBoard
  cases s.board <;> rfl

theorem uncompressed_extractReadingMany (ds : List (ReadingInsightData × Nat)) (s : ServiceState) :
    (uncompressed (extractReadingMany ds s).readingInsights).length =
      (uncompressed s.readingInsights).length + ds.length := by
  induction ds generalizing s with
  | nil => simp [extractReadingMany]
  | cons d ds ih =>
    have h1 : extractReadingMany (d :: ds) s = extractReadingMany ds (extractReading d.1 d.2 s) :=
      rfl
    rw [h1, ih, uncompressed_extractReading]
    simp
    omega

theorem uncompressed_extractListeningMany (ds : List (ListeningInsightData × Nat))
    (s : ServiceState) :
    (uncompressed (extractListeningMany ds s).listeningInsights).length =
      (uncompressed s.listeningInsights).length + ds.length := by
  induction ds generalizing s with
  | nil => simp [extractListeningMany]
  | cons d ds ih =>
    have h1 : extractListeningMany (d :: ds) s =
        extractListeningMany ds (extractListening d.1 d.2 s) := rfl
    rw [h1, ih, uncompressed_extractListening]
    simp
    omega

theorem uncompressed_extractSpeakingMany (ds : List (SpeakingInsightData × Nat))
    (s : ServiceState) :
    (uncompressed (extractSpeakingMany ds s).speakingInsights).length =
      (uncompressed s.speakingInsights).length + ds.length := by
  induction ds generalizing s with
  | nil => simp [extractSpeakingMany]
  | cons d ds ih =>
    have h1 : extractSpeakingMany (d :: ds) s =
        extractSpeakingMany ds (extractSpeaking d.1 d.2 s) := rfl
    rw [h1, ih, uncompressed_extractSpeaking]
    simp
    omega

theorem uncompressed_extractWritingMany (ds : List (WritingInsightData × Nat))
    (s : ServiceState) :
    (uncompressed (extractWritingMany ds s).writingInsights).length =
      (uncompressed s.writingInsights).length + ds.length := by
  induction ds generalizing s with
  | nil => simp [extractWritingMany]
  | cons d ds ih =>
    have h1 : extractWritingMany (d :: ds) s =
        extractWritingMany ds (extractWriting d.1 d.2 s) := rfl
    rw [h1, ih, uncompressed_extractWriting]
    simp
    omega

theorem uncompressed_extractConversationMany (ds : List (ConversationInsightData × Nat))
    (s : ServiceState) :
    (uncompressed (extractConversationMany ds s).conversationInsights).length =
      (uncompressed s.conversationInsights).length + ds.length := by
  induction ds generalizing s with
  | nil => simp [extractConversationMany]
  | cons d ds ih =>
    have h1 : extractConversationMany (d :: ds) s =
        extractConversationMany ds (extractConversation d.1 d.2 s) := rfl
    rw [h1, ih, uncompressed_extractConversation]
    simp
    omega

theorem compressReading_noop (u : Bool) (a : AiResult) (t : Nat) (s : ServiceState)
    (h : uncompressed s.readingInsights = []) :
    compressReadingMemory u a t s = (none, s) := by
  simp [compressReadingMemory, h, newestFirst]

theorem compressListening_noop (u : Bool) (a : AiResult) (t : Nat) (s : ServiceState)
    (h : uncompressed s.listeningInsights = []) :
    compressListeningMemory u a t s = (none, s) := by
  simp [compressListeningMemory, h, newestFirst]

theorem compressSpeaking_noop (u : Bool) (a : AiResult) (t : Nat) (s : ServiceState)
    (h : uncompressed s.speakingInsights = []) :
    compressSpeakingMemory u a t s = (none, s) := by
  simp [compressSpeakingMemory, h, newestFirst]

theorem compressWriting_noop (u : Bool) (a : AiResult) (t : Nat) (s : ServiceState)
    (h : uncompressed s.writingInsights = []) :
    compressWritingMemory u a t s = (none, s) := by
  simp [compressWritingMemory, h, newestFirst]

theorem compressConversation_noop (u : Bool) (a : AiResult) (t : Nat) (s : ServiceState)
    (h : uncompressed s.conversationInsights = []) :
    compressConversationMemory u a t s = (none, s) := by
  simp [compressConversationMemory, h, newestFirst]

theorem uncompressed_post_compressReading (u : Bool) (a : AiResult) (t : Nat) (s : ServiceState) :
    uncompressed ((compressReadingMemory u a t s).2).readingInsights = [] := by
  obtain ⟨bo, ri, li, si, wi, ci⟩ := s
  simp only [compressReadingMemory]
  by_cases he : (newestFirst (uncompressed ri)).isEmpty = true
  · rw [if_pos he]
    have h1 : newestFirst (uncompressed ri) = [] := List.isEmpty_iff.mp he
    have h2 : uncompressed ri = [] := by
      have := congrArg List.reverse h1
      simpa [newestFirst] using this
    exact h2
  · rw [if_neg he]
    cases bo <;> exact uncompressed_markCompressed _ _

theorem uncompressed_post_compressListening (u : Bool) (a : AiResult) (t : Nat)
    (s : ServiceState) :
    uncompressed ((compressListeningMemory u a t s).2).listeningInsights = [] := by
  obtain ⟨bo, ri, li, si, wi, ci⟩ := s
  simp only [compressListeningMemory]
  by_cases he : (newestFirst (uncompressed li)).isEmpty = true
  · rw [if_pos he]
    have h1 : newestFirst (uncompressed li) = [] := List.isEmpty_iff.mp he
    have h2 : uncompressed li = [] := by
      have := congrArg List.reverse h1
      simpa [newestFirst] using this
    exact h2
  · rw [if_neg he]
    cases bo <;> exact uncompressed_markCompressed _ _

theorem uncompressed_post_compressSpeaking (u : Bool) (a : AiResult) (t : Nat)
    (s : ServiceState) :
    uncompressed ((compressSpeakingMemory u a t s).2).speakingInsights = [] := by
  obtain ⟨bo, ri, li, si, wi, ci⟩ := s
  simp only [compressSpeakingMemory]
  by_cases he : (newestFirst (uncompressed si)).isEmpty = true
  · rw [if_pos he]
    have h1 : newestFirst (uncompressed si) = [] := List.isEmpty_iff.mp he
    have h2 : uncompressed si = [] := by
      have := congrArg List.reverse h1
      simpa [newestFirst] using this
    exact h2
  · rw [if_neg he]
    cases bo <;> exact uncompressed_markCompressed _ _

theorem uncompressed_post_compressWriting (u : Bool) (a : AiResult) (t : Nat)
    (s : ServiceState) :
    uncompressed ((compressWritingMemory u a t s).2).writingInsights = [] := by
  obtain ⟨bo, ri, li, si, wi, ci⟩ := s
  simp only [compressWritingMemory]
  by_cases he : (newestFirst (uncompressed wi)).isEmpty = true
  · rw [if_pos he]
    have h1 : newestFirst (uncompressed wi) = [] := List.isEmpty_iff.mp he
    have h2 : uncompressed wi = [] := by
      have := congrArg List.reverse h1
      simpa [newestFirst] using this
    exact h2
  · rw [if_neg he]
    cases bo <;> exact uncompressed_markCompressed _ _

theorem uncompressed_post_compressConversation (u : Bool) (a : AiResult) (t : Nat)
    (s : ServiceState) :
    uncompressed ((compressConversationMemory u a t s).2).conversationInsights = [] := by
  obtain ⟨bo, ri, li, si, wi, ci⟩ := s
  simp only [compressConversationMemory]
  by_cases he : (newestFirst (uncompressed ci)).isEmpty = true
  · rw [if_pos he]
    have h1 : newestFirst (uncompressed ci) = [] := List.isEmpty_iff.mp he
    have h2 : uncompressed ci = [] := by
      have := congrArg List.reverse h1
      simpa [newestFirst] using this
    exact h2
  · rw [if_neg he]
    cases bo <;> exact uncompressed_markCompressed _ _

/-! ## Claim theorems -/

/-- C2: for every module, the trigger check returns true exactly when the
count of uncompressed insights of that module reaches COMPRESSION_THRESHOLD
(five); in particular a student who starts with no stored insights of a
module triggers after exactly five extractions and not after four. -/
theorem C2_compression_threshold (s : ServiceState) :
    (((shouldCompressReadingMemory s).1 = true ↔
        COMPRESSION_THRESHOLD ≤ (uncompressed s.readingInsights).length) ∧
     ((shouldCompressListeningMemory s).1 = true ↔
        COMPRESSION_THRESHOLD ≤ (uncompressed s.listeningInsights).length) ∧
     ((shouldCompressSpeakingMemory s).1 = true ↔
        COMPRESSION_THRESHOLD ≤ (uncompressed s.speakingInsights).length) ∧
     ((shouldCompressWritingMemory s).1 = true ↔
        COMPRESSION_THRESHOLD ≤ (uncompressed s.writingInsights).length) ∧
     ((shouldCompressConversationMemory s).1 = true ↔
        COMPRESSION_THRESHOLD ≤ (uncompressed s.conversationInsights).length)) ∧
    ((s.readingInsights = [] →
       ∀ ds : List (ReadingInsightData × Nat),
         (ds.length = 5 → (shouldCompressReadingMemory (extractReadingMany ds s)).1 = true) ∧
         (ds.length = 4 → (shouldCompressReadingMemory (extractReadingMany ds s)).1 = false)) ∧
     (s.listeningInsights = [] →
       ∀ ds : List (ListeningInsightData × Nat),
         (ds.length = 5 → (shouldCompressListeningMemory (extractListeningMany ds s)).1 = true) ∧
         (ds.length = 4 → (shouldCompressListeningMemory (extractListeningMany ds s)).1 = false)) ∧
     (s.speakingInsights = [] →
       ∀ ds : List (SpeakingInsightData × Nat),
         (ds.length = 5 → (shouldCompressSpeakingMemory (extractSpeakingMany ds s)).1 = true) ∧
         (ds.length = 4 → (shouldCompressSpeakingMemory (extractSpeakingMany ds s)).1 = false)) ∧
     (s.writingInsights = [] →
       ∀ ds : List (WritingInsightData × Nat),
         (ds.length = 5 → (shouldCompressWritingMemory (extractWritingMany ds s)).1 = true) ∧
         (ds.length = 4 → (shouldCompressWritingMemory (extractWritingMany ds s)).1 = false)) ∧
     (s.conversationInsights = [] →
       ∀ ds : List (ConversationInsightData × Nat),
         (ds.length = 5 →
           (shouldCompressConversationMemory (extractConversationMany ds s)).1 = true) ∧
         (ds.length = 4 →
           (shouldCompressConversationMemory (extractConversationMany ds s)).1 = false))) := by
  refine ⟨⟨?_, ?_, ?_, ?_, ?_⟩, ?_, ?_, ?_, ?_, ?_⟩
  · rw [shouldCompressReading_val]; exact decide_eq_true_iff
  · rw [shouldCompressListening_val]; exact decide_eq_true_iff
  · rw [shouldCompressSpeaking_val]; exact decide_eq_true_iff
  · rw [shouldCompressWriting_val]; exact decide_eq_true_iff
  · rw [shouldCompressConversation_val]; exact decide_eq_true_iff
  · intro hnil ds
    constructor <;> intro hlen <;>
      · rw [shouldCompressReading_val, uncompressed_extractReadingMany]
        rw [hnil]
        simp [uncompressed, hlen, COMPRESSION_THRESHOLD]
  · intro hnil ds
    constructor <;> intro hlen <;>
      · rw [shouldCompressListening_val, uncompressed_extractListeningMany]
        rw [hnil]
        simp [uncompressed, hlen, COMPRESSION_THRESHOLD]
  · intro hnil ds
    constructor <;> intro hlen <;>
      · rw [shouldCompressSpeaking_val, uncompressed_extractSpeakingMany]
        rw [hnil]
        simp [uncompressed, hlen, COMPRESSION_THRESHOLD]
  · intro hnil ds
    constructor <;> intro hlen <;>
      · rw [shouldCompressWriting_val, uncompressed_extractWritingMany]
        rw [hnil]
        simp [uncompressed, hlen, COMPRESSION_THRESHOLD]
  · intro hnil ds
    constructor <;> intro hlen <;>
      · rw [shouldCompressConversation_val, uncompressed_extractConversationMany]
        rw [hnil]
        simp [uncompressed, hlen, COMPRESSION_THRESHOLD]

/-- Witness for C2: starting from the fresh student, five reading
extractions flip the trigger to true, four leave it false. -/
theorem C2_compression_threshold_witness :
    (shouldCompressReadingMemory (extractReadingMany fiveReadingExtractions freshState)).1 =
      true ∧
    (shouldCompressReadingMemory (extractReadingMany fourReadingExtractions freshState)).1 =
      false :=
  ⟨((C2_compression_threshold freshState).2.1 rfl fiveReadingExtractions).1 rfl,
   ((C2_compression_threshold freshState).2.1 rfl fourReadingExtractions).2 rfl⟩

/-- C6: for every module, compression with no uncompressed insight is a
complete no-op returning the empty result and leaving the whole stored
state untouched, and a second compression immediately after any compression
is such a no-op. -/
theorem C6_empty_noop_idempotent (u u' : Bool) (a a' : AiResult) (t t' : Nat)
    (s : ServiceState) :
    ((uncompressed s.readingInsights = [] → compressReadingMemory u a t s = (none, s)) ∧
     (uncompressed s.listeningInsights = [] → compressListeningMemory u a t s = (none, s)) ∧
     (uncompressed s.speakingInsights = [] → compressSpeakingMemory u a t s = (none, s)) ∧
     (uncompressed s.writingInsights = [] → compressWritingMemory u a t s = (none, s)) ∧
     (uncompressed s.conversationInsights = [] → compressConversationMemory u a t s = (none, s))) ∧
    (compressReadingMemory u' a' t' (compressReadingMemory u a t s).2 =
        (none, (compressReadingMemory u a t s).2) ∧
     compressListeningMemory u' a' t' (compressListeningMemory u a t s).2 =
        (none, (compressListeningMemory u a t s).2) ∧
     compressSpeakingMemory u' a' t' (compressSpeakingMemory u a t s).2 =
        (none, (compressSpeakingMemory u a t s).2) ∧
     compressWritingMemory u' a' t' (compressWritingMemory u a t s).2 =
        (none, (compressWritingMemory u a t s).2) ∧
     compressConversationMemory u' a' t' (compressConversationMemory u a t s).2 =
        (none, (compressConversationMemory u a t s).2)) :=
  ⟨⟨compressReading_noop u a t s, compressListening_noop u a t s,
    compressSpeaking_noop u a t s, compressWriting_noop u a t s,
    compressConversation_noop u a t s⟩,
   compressReading_noop u' a' t' _ (uncompressed_post_compressReading u a t s),
   compressListening_noop u' a' t' _ (uncompressed_post_compressListening u a t s),
   compressSpeaking_noop u' a' t' _ (uncompressed_post_compressSpeaking u a t s),
   compressWriting_noop u' a' t' _ (uncompressed_post_compressWriting u a t s),
   compressConversation_noop u' a' t' _ (uncompressed_post_compressConversation u a t s)⟩

/-- Witness for C6 at the fresh student: reading and conversation
compression runs with nothing to consume return the empty result and the
unchanged state. -/
theorem C6_empty_noop_idempotent_witness :
    compressReadingMemory true .failure 3 freshState = (none, freshState) ∧
    compressConversationMemory false .failure 3 freshState = (none, freshState) :=
  ⟨(C6_empty_noop_idempotent true true .failure .failure 3 3 freshState).1.1 rfl,
   (C6_empty_noop_idempotent false false .failure .failure 3 3 freshState).1.2.2.2.2 rfl⟩

/-- C8: under every sequence of service operations, no stored insight of any
module loses its compressed flag, its compression time once set, its
extracted data or its creation time. -/
theorem C8_compressed_flag_monotone (ops : List Op) (s : ServiceState) :
    statePreserved s (runOps ops s) :=
  statePreserved_runOps ops s

/-- C4: whenever a compression run consumes at least one insight, the single
observable step it takes applies every effect together: the returned payload
is written into the module slot of the board, the compression timestamp is
set, the counter is reset to zero and no consumed insight is left
uncompressed.  The no-op alternative (nothing consumed, nothing changed) is
covered by the C6 theorem. -/
theorem C4_compression_atomicity (u : Bool) (a : AiResult) (t : Nat) (s : ServiceState) :
    (uncompressed s.readingInsights ≠ [] →
      ∃ (p : ReadingPayload) (b : MemoryBoard),
        (compressReadingMemory u a t s).1 = some p ∧
        (compressReadingMemory u a t s).2.board = some b ∧
        b.reading_memory = some p ∧
        b.reading_last_compressed_at = some t ∧
        b.reading_sessions_since_compression = 0 ∧
        uncompressed (compressReadingMemory u a t s).2.readingInsights = []) ∧
    (uncompressed s.listeningInsights ≠ [] →
      ∃ (p : ListeningPayload) (b : MemoryBoard),
        (compressListeningMemory u a t s).1 = some p ∧
        (compressListeningMemory u a t s).2.board = some b ∧
        b.listening_memory = some p ∧
        b.listening_last_compressed_at = some t ∧
        b.listening_sessions_since_compression = 0 ∧
        uncompressed (compressListeningMemory u a t s).2.listeningInsights = []) ∧
    (uncompressed s.speakingInsights ≠ [] →
      ∃ (p : SpeakingPayload) (b : MemoryBoard),
        (compressSpeakingMemory u a t s).1 = some p ∧
        (compressSpeakingMemory u a t s).2.board = some b ∧
        b.speaking_memory = some p ∧
        b.speaking_last_compressed_at = some t ∧
        b.speaking_sessions_since_compression = 0 ∧
        uncompressed (compressSpeakingMemory u a t s).2.speakingInsights = []) ∧
    (uncompressed s.writingInsights ≠ [] →
      ∃ (p : WritingPayload) (b : MemoryBoard),
        (compressWritingMemory u a t s).1 = some p ∧
        (compressWritingMemory u a t s).2.board = some b ∧
        b.writing_memory = some p ∧
        b.writing_last_compressed_at = some t ∧
        b.writing_sessions_since_compression = 0 ∧
        uncompressed (compressWritingMemory u a t s).2.writingInsights = []) ∧
    (uncompressed s.conversationInsights ≠ [] →
      ∃ (p : ConversationPayload) (b : MemoryBoard),
        (compressConversationMemory u a t s).1 = some p ∧
        (compressConversationMemory u a t s).2.board = some b ∧
        b.conversation_memory = some p ∧
        b.conversation_last_compressed_at = some t ∧
        b.conversation_sessions_since_compression = 0 ∧
        uncompressed (compressConversationMemory u a t s).2.conversationInsights = []) := by
  obtain ⟨bo, ri, li, si, wi, ci⟩ := s
  refine ⟨?_, ?_, ?_, ?_, ?_⟩
  · intro hne
    have hf := newestFirst_isEmpty_false hne
    simp only [compressReadingMemory, hf, Bool.false_eq_true, if_false]
    cases bo <;>
      exact ⟨_, _, rfl, rfl, rfl, rfl, rfl, uncompressed_markCompressed _ _⟩
  · intro hne
    have hf := newestFirst_isEmpty_false hne
    simp only [compressListeningMemory, hf, Bool.false_eq_true, if_false]
    cases bo <;>
      exact ⟨_, _, rfl, rfl, rfl, rfl, rfl, uncompressed_markCompressed _ _⟩
  · intro hne
    have hf := newestFirst_isEmpty_false hne
    simp only [compressSpeakingMemory, hf, Bool.false_eq_true, if_false]
    cases bo <;>
      exact ⟨_, _, rfl, rfl, rfl, rfl, rfl, uncompressed_markCompressed _ _⟩
  · intro hne
    have hf := newestFirst_isEmpty_false hne
    simp only [compressWritingMemory, hf, Bool.false_eq_true, if_false]
    cases bo <;>
      exact ⟨_, _, rfl, rfl, rfl, rfl, rfl, uncompressed_markCompressed _ _⟩
  · intro hne
    have hf := newestFirst_isEmpty_false hne
    simp only [compressConversationMemory, hf, Bool.false_eq_true, if_false]
    cases bo <;>
      exact ⟨_, _, rfl, rfl, rfl, rfl, rfl, uncompressed_markCompressed _ _⟩

/-- Witness for C4 at a state holding one uncompressed insight per module. -/
theorem C4_compression_atomicity_witness :
    (∃ (p : ReadingPayload) (b : MemoryBoard),
        (compressReadingMemory true .failure 7 oneEachState).1 = some p ∧
        (compressReadingMemory true .failure 7 oneEachState).2.board = some b ∧
        b.reading_memory = some p ∧
        b.reading_last_compressed_at = some 7 ∧
        b.reading_sessions_since_compression = 0 ∧
        uncompressed (compressReadingMemory true .failure 7 oneEachState).2.readingInsights =
          []) ∧
    (∃ (p : ConversationPayload) (b : MemoryBoard),
        (compressConversationMemory true .failure 7 oneEachState).1 = some p ∧
        (compressConversationMemory true .failure 7 oneEachState).2.board = some b ∧
        b.conversation_memory = some p ∧
        b.conversation_last_compressed_at = some 7 ∧
        b.conversation_sessions_since_compression = 0 ∧
        uncompressed
          (compressConversationMemory true .failure 7 oneEachState).2.conversationInsights =
          []) :=
  ⟨(C4_compression_atomicity true .failure 7 oneEachState).1 (by decide),
   (C4_compression_atomicity true .failure 7 oneEachState).2.2.2.2 (by decide)⟩

/-- C5: when the AI step is enabled and the summarizer call raises, every
compression run still completes (the batch is consumed and flagged) and
returns a payload whose summary is the deterministic module fallback string
built from the count of analyzed sessions; it is never null. -/
theorem C5_summarizer_fallback (t : Nat) (s : ServiceState) :
    (uncompressed s.readingInsights ≠ [] →
      ∃ p : ReadingPayload,
        (compressReadingMemory true .failure t s).1 = some p ∧
        p.summary = some (readingFallback p.total_sessions_analyzed) ∧
        p.total_sessions_analyzed = (uncompressed s.readingInsights).length ∧
        uncompressed (compressReadingMemory true .failure t s).2.readingInsights = []) ∧
    (uncompressed s.listeningInsights ≠ [] →
      ∃ p : ListeningPayload,
        (compressListeningMemory true .failure t s).1 = some p ∧
        p.summary = some (listeningFallback p.total_sessions_analyzed) ∧
        p.total_sessions_analyzed = (uncompressed s.listeningInsights).length ∧
        uncompressed (compressListeningMemory true .failure t s).2.listeningInsights = []) ∧
    (uncompressed s.speakingInsights ≠ [] →
      ∃ p : SpeakingPayload,
        (compressSpeakingMemory true .failure t s).1 = some p ∧
        p.summary = some (speakingFallback p.total_sessions_analyzed) ∧
        p.total_sessions_analyzed = (uncompressed s.speakingInsights).length ∧
        uncompressed (compressSpeakingMemory true .failure t s).2.speakingInsights = []) ∧
    (uncompressed s.writingInsights ≠ [] →
      ∃ p : WritingPayload,
        (compressWritingMemory true .failure t s).1 = some p ∧
        p.summary = some (writingFallback p.total_sessions_analyzed) ∧
        p.total_sessions_analyzed = (uncompressed s.writingInsights).length ∧
        uncompressed (compressWritingMemory true .failure t s).2.writingInsights = []) ∧
    (uncompressed s.conversationInsights ≠ [] →
      ∃ p : ConversationPayload,
        (compressConversationMemory true .failure t s).1 = some p ∧
        p.summary = some (conversationFallback p.total_sessions_analyzed) ∧
        p.total_sessions_analyzed = (uncompressed s.conversationInsights).length ∧
        uncompressed (compressConversationMemory true .failure t s).2.conversationInsights =
          []) := by
  obtain ⟨bo, ri, li, si, wi, ci⟩ := s
  refine ⟨?_, ?_, ?_, ?_, ?_⟩
  · intro hne
    have hf := newestFirst_isEmpty_false hne
    simp only [compressReadingMemory, hf, Bool.false_eq_true, if_false]
    cases bo <;>
      exact ⟨_, rfl, rfl, by simp [buildReadingPayload, newestFirst],
        uncompressed_markCompressed _ _⟩
  · intro hne
    have hf := newestFirst_isEmpty_false hne
    simp only [compressListeningMemory, hf, Bool.false_eq_true, if_false]
    cases bo <;>
      exact ⟨_, rfl, rfl, by simp [buildListeningPayload, newestFirst],
        uncompressed_markCompressed _ _⟩
  · intro hne
    have hf := newestFirst_isEmpty_false hne
    simp only [compressSpeakingMemory, hf, Bool.false_eq_true, if_false]
    cases bo <;>
      exact ⟨_, rfl, rfl, by simp [buildSpeakingPayload, newestFirst],
        uncompressed_markCompressed _ _⟩
  · intro hne
    have hf := newestFirst_isEmpty_false hne
    simp only [compressWritingMemory, hf, Bool.false_eq_true, if_false]
    cases bo <;>
      exact ⟨_, rfl, rfl, by simp [buildWritingPayload, newestFirst],
        uncompressed_markCompressed _ _⟩
  · intro hne
    have hf := newestFirst_isEmpty_false hne
    simp only [compressConversationMemory, hf, Bool.false_eq_true, if_false]
    cases bo <;>
      exact ⟨_, rfl, rfl, by simp [buildConversationPayload, newestFirst],
        uncompressed_markCompressed _ _⟩

/-- Witness for C5 at a state holding one uncompressed insight per module. -/
theorem C5_summarizer_fallback_witness :
    (∃ p : ReadingPayload,
        (compressReadingMemory true .failure 8 oneEachState).1 = some p ∧
        p.summary = some (readingFallback p.total_sessions_analyzed) ∧
        p.total_sessions_analyzed = (uncompressed oneEachState.readingInsights).length ∧
        uncompressed (compressReadingMemory true .failure 8 oneEachState).2.readingInsights =
          []) ∧
    (∃ p : SpeakingPayload,
        (compressSpeakingMemory true .failure 8 oneEachState).1 = some p ∧
        p.summary = some (speakingFallback p.total_sessions_analyzed) ∧
        p.total_sessions_analyzed = (uncompressed oneEachState.speakingInsights).length ∧
        uncompressed (compressSpeakingMemory true .failure 8 oneEachState).2.speakingInsights =
          []) :=
  ⟨(C5_summarizer_fallback 8 oneEachState).1 (by decide),
   (C5_summarizer_fallback 8 oneEachState).2.2.1 (by decide)⟩

/-- C10: every compression run touches only the slice of state belonging to
its own module: the payload slots, compression timestamps and session
counters of the other four modules keep their observable values, and the
insight tables of the other four modules are untouched. -/
theorem C10_module_frame (u : Bool) (a : AiResult) (t : Nat) (s : ServiceState) :
    (listeningSlice (compressReadingMemory u a t s).2 = listeningSlice s ∧
     speakingSlice (compressReadingMemory u a t s).2 = speakingSlice s ∧
     writingSlice (compressReadingMemory u a t s).2 = writingSlice s ∧
     conversationSlice (compressReadingMemory u a t s).2 = conversationSlice s ∧
     (compressReadingMemory u a t s).2.listeningInsights = s.listeningInsights ∧
     (compressReadingMemory u a t s).2.speakingInsights = s.speakingInsights ∧
     (compressReadingMemory u a t s).2.writingInsights = s.writingInsights ∧
     (compressReadingMemory u a t s).2.conversationInsights = s.conversationInsights) ∧
    (readingSlice (compressListeningMemory u a t s).2 = readingSlice s ∧
     speakingSlice (compressListeningMemory u a t s).2 = speakingSlice s ∧
     writingSlice (compressListeningMemory u a t s).2 = writingSlice s ∧
     conversationSlice (compressListeningMemory u a t s).2 = conversationSlice s ∧
     (compressListeningMemory u a t s).2.readingInsights = s.readingInsights ∧
     (compressListeningMemory u a t s).2.speakingInsights = s.speakingInsights ∧
     (compressListeningMemory u a t s).2.writingInsights = s.writingInsights ∧
     (compressListeningMemory u a t s).2.conversationInsights = s.conversationInsights) ∧
    (readingSlice (compressSpeakingMemory u a t s).2 = readingSlice s ∧
     listeningSlice (compressSpeakingMemory u a t s).2 = listeningSlice s ∧
     writingSlice (compressSpeakingMemory u a t s).2 = writingSlice s ∧
     conversationSlice (compressSpeakingMemory u a t s).2 = conversationSlice s ∧
     (compressSpeakingMemory u a t s).2.readingInsights = s.readingInsights ∧
     (compressSpeakingMemory u a t s).2.listeningInsights = s.listeningInsights ∧
     (compressSpeakingMemory u a t s).2.writingInsights = s.writingInsights ∧
     (compressSpeakingMemory u a t s).2.conversationInsights = s.conversationInsights) ∧
    (readingSlice (compressWritingMemory u a t s).2 = readingSlice s ∧
     listeningSlice (compressWritingMemory u a t s).2 = listeningSlice s ∧
     speakingSlice (compressWritingMemory u a t s).2 = speakingSlice s ∧
     conversationSlice (compressWritingMemory u a t s).2 = conversationSlice s ∧
     (compressWritingMemory u a t s).2.readingInsights = s.readingInsights ∧
     (compressWritingMemory u a t s).2.listeningInsights = s.listeningInsights ∧
     (compressWritingMemory u a t s).2.speakingInsights = s.speakingInsights ∧
     (compressWritingMemory u a t s).2.conversationInsights = s.conversationInsights) ∧
    (readingSlice (compressConversationMemory u a t s).2 = readingSlice s ∧
     listeningSlice (compressConversationMemory u a t s).2 = listeningSlice s ∧
     speakingSlice (compressConversationMemory u a t s).2 = speakingSlice s ∧
     writingSlice (compressConversationMemory u a t s).2 = writingSlice s ∧
     (compressConversationMemory u a t s).2.readingInsights = s.readingInsights ∧
     (compressConversationMemory u a t s).2.listeningInsights = s.listeningInsights ∧
     (compressConversationMemory u a t s).2.speakingInsights = s.speakingInsights ∧
     (compressConversationMemory u a t s).2.writingInsights = s.writingInsights) := by
  obtain ⟨bo, ri, li, si, wi, ci⟩ := s
  refine ⟨?_, ?_, ?_, ?_, ?_⟩
  · simp only [compressReadingMemory]
    by_cases he : (newestFirst (uncompressed ri)).isEmpty = true
    · rw [if_pos he]
      exact ⟨rfl, rfl, rfl, rfl, rfl, rfl, rfl, rfl⟩
    · rw [if_neg he]
      cases bo <;> exact ⟨rfl, rfl, rfl, rfl, rfl, rfl, rfl, rfl⟩
  · simp only [compressListeningMemory]
    by_cases he : (newestFirst (uncompressed li)).isEmpty = true
    · rw [if_pos he]
      exact ⟨rfl, rfl, rfl, rfl, rfl, rfl, rfl, rfl⟩
    · rw [if_neg he]
      cases bo <;> exact ⟨rfl, rfl, rfl, rfl, rfl, rfl, rfl, rfl⟩
  · simp only [compressSpeakingMemory]
    by_cases he : (newestFirst (uncompressed si)).isEmpty = true
    · rw [if_pos he]
      exact ⟨rfl, rfl, rfl, rfl, rfl, rfl, rfl, rfl⟩
    · rw [if_neg he]
      cases bo <;> exact ⟨rfl, rfl, rfl, rfl, rfl, rfl, rfl, rfl⟩
  · simp only [compressWritingMemory]
    by_cases he : (newestFirst (uncompressed wi)).isEmpty = true
    · rw [if_pos he]
      exact ⟨rfl, rfl, rfl, rfl, rfl, rfl, rfl, rfl⟩
    · rw [if_neg he]
      cases bo <;> exact ⟨rfl, rfl, rfl, rfl, rfl, rfl, rfl, rfl⟩
  · simp only [compressConversationMemory]
    by_cases he : (newestFirst (uncompressed ci)).isEmpty = true
    · rw [if_pos he]
      exact ⟨rfl, rfl, rfl, rfl, rfl, rfl, rfl, rfl⟩
    · rw [if_neg he]
      cases bo <;> exact ⟨rfl, rfl, rfl, rfl, rfl, rfl, rfl, rfl⟩

/-- C9 counterexample: for a student without a memory board the hint read is
not free of side effects on stored state: it creates (and persists) the
empty board, so the post-state differs from the initial one.  The safe
defaults themselves are returned as claimed. -/
theorem C9_adaptive_focus_counterexample :
    (getAdaptiveQuestionFocus freshState).2 ≠ freshState ∧
    (getAdaptiveQuestionFocus freshState).1 = defaultQuestionFocus := by
  constructor
  · decide
  · rfl

/-- C9 amended: get_adaptive_question_focus modifies no stored state except
that it lazily creates the empty memory board when none exists; given an
existing board it is a pure read, and whenever the board or its reading
payload is missing it returns the safe defaults (empty challenge words, the
neutral question type priorities, intermediate difficulty). -/
theorem C9_adaptive_focus_amended (s : ServiceState) :
    (∀ b : MemoryBoard, s.board = some b → (getAdaptiveQuestionFocus s).2 = s) ∧
    (s.board = none →
      (getAdaptiveQuestionFocus s).2 = { s with board := some emptyBoard } ∧
      (getAdaptiveQuestionFocus s).1 = defaultQuestionFocus) ∧
    (∀ b : MemoryBoard, s.board = some b → b.reading_memory = none →
      (getAdaptiveQuestionFocus s).1 = defaultQuestionFocus) := by
  obtain ⟨bo, ri, li, si, wi, ci⟩ := s
  refine ⟨?_, ?_, ?_⟩
  · rintro b rfl
    simp only [getAdaptiveQuestionFocus, getReadingMemory, getOrCreateBoard]
    cases b.reading_memory <;> rfl
  · rintro rfl
    exact ⟨rfl, rfl⟩
  · rintro b rfl hm
    simp only [getAdaptiveQuestionFocus, getReadingMemory, getOrCreateBoard, hm]

/-- Witness for C9: with an existing (empty) board the read leaves the state
unchanged and yields the defaults; without a board it creates the empty
board. -/
theorem C9_adaptive_focus_witness :
    (getAdaptiveQuestionFocus emptyBoardState).2 = emptyBoardState ∧
    (getAdaptiveQuestionFocus freshState).2 = { freshState with board := some emptyBoard } ∧
    (getAdaptiveQuestionFocus emptyBoardState).1 = defaultQuestionFocus :=
  ⟨(C9_adaptive_focus_amended emptyBoardState).1 emptyBoard rfl,
   ((C9_adaptive_focus_amended freshState).2.1 rfl).1,
   (C9_adaptive_focus_amended emptyBoardState).2.2 emptyBoard rfl rfl⟩

/-- C7 counterexample: the listening compression of one insight with eleven
distinct struggled question types stores a chronic list (the comprehension
weakness list, the only chronic list of the listening payload) with eleven
entries, more than ten, and with the frequencies starting ascending 2, 3, so
the list is neither capped to ten nor sorted by descending frequency. -/
theorem C7_chronic_list_counterexample :
    ((compressListeningMemory false .failure 3 elevenTypesListeningState).1.map
        (fun p => (p.comprehension_weaknesses.length,
          (p.comprehension_weaknesses.map (fun w => w.frequency)).take 2))) =
      some (11, [2, 3]) ∧
    ¬ (((compressListeningMemory false .failure 3 elevenTypesListeningState).1.map
          (fun p => p.comprehension_weaknesses.map (fun w => w.frequency))).getD []).Sorted
        (fun x y => y ≤ x) := by
  constructor
  · decide
  · decide

/-- C7 amended: the primary chronic lists of the reading, speaking, writing
and conversation payloads are capped to at most ten entries, and descending
sorting by frequency is applied exactly to the writing chronic grammar and
recurring style lists and to the conversation chronic grammar, vocabulary
gap, chronic mispronunciation and problem phoneme lists; the reading and
listening comprehension weakness lists are stored uncapped, and the lists
without the sort step are kept in first-occurrence order of their keys. -/
theorem C7_chronic_cap_and_sort_amended (rs : List ReadingInsightData)
    (ss : List SpeakingInsightData) (wsI : List WritingInsightData)
    (cs : List ConversationInsightData) (u : Bool) (a : AiResult) (t : Nat) :
    ((buildReadingPayload rs u a t).vocabulary_gaps.length ≤ 10) ∧
    ((buildSpeakingPayload ss u a t).chronic_pronunciation_errors.length ≤ 10 ∧
     (buildSpeakingPayload ss u a t).problem_phonemes.length ≤ 10) ∧
    ((buildWritingPayload wsI u a t).chronic_grammar_errors.length ≤ 10 ∧
     (buildWritingPayload wsI u a t).recurring_style_issues.length ≤ 10 ∧
     (buildWritingPayload wsI u a t).vocabulary_weaknesses.length ≤ 10 ∧
     (buildWritingPayload wsI u a t).content_patterns.length ≤ 10) ∧
    ((buildConversationPayload cs u a t).chronic_grammar_errors.length ≤ 10 ∧
     (buildConversationPayload cs u a t).vocabulary_gaps.length ≤ 10 ∧
     (buildConversationPayload cs u a t).fluency_patterns.length ≤ 10 ∧
     (buildConversationPayload cs u a t).topic_struggles.length ≤ 10 ∧
     (buildConversationPayload cs u a t).chronic_mispronunciations.length ≤ 10 ∧
     (buildConversationPayload cs u a t).problem_phonemes.length ≤ 10) ∧
    ((buildWritingPayload wsI u a t).chronic_grammar_errors.Sorted
        (fun x y => y.frequency ≤ x.frequency) ∧
     (buildWritingPayload wsI u a t).recurring_style_issues.Sorted
        (fun x y => y.frequency ≤ x.frequency)) ∧
    ((buildConversationPayload cs u a t).chronic_grammar_errors.Sorted
        (fun x y => y.frequency ≤ x.frequency) ∧
     (buildConversationPayload cs u a t).vocabulary_gaps.Sorted
        (fun x y => y.frequency ≤ x.frequency) ∧
     (buildConversationPayload cs u a t).chronic_mispronunciations.Sorted
        (fun x y => y.frequency ≤ x.frequency) ∧
     (buildConversationPayload cs u a t).problem_phonemes.Sorted
        (fun x y => y.frequency ≤ x.frequency)) :=
  ⟨List.length_take_le _ _,
   ⟨List.length_take_le _ _, List.length_take_le _ _⟩,
   ⟨List.length_take_le _ _, List.length_take_le _ _, List.length_take_le _ _,
    List.length_take_le _ _⟩,
   ⟨List.length_take_le _ _, List.length_take_le _ _, List.length_take_le _ _,
    List.length_take_le _ _, List.length_take_le _ _, List.length_take_le _ _⟩,
   ⟨sorted_take_sortByFreqDesc _ _ _, sorted_take_sortByFreqDesc _ _ _⟩,
   ⟨sorted_take_sortByFreqDesc _ _ _, sorted_take_sortByFreqDesc _ _ _,
    sorted_take_sortByFreqDesc _ _ _, sorted_take_sortByFreqDesc _ _ _⟩⟩

theorem count_map_eq_length_filter {α : Type} (g : α → String) (l : List α) (k : String) :
    (l.map g).count k = (l.filter (fun x => g x == k)).length := by
  rw [List.count_eq_countP, List.countP_map, List.countP_eq_length_filter]
  rfl

theorem group_values_eq {α β : Type} (f : α → String) (val : α → β) (l : List α) (k : String)
    (hk : k ≠ "") :
    (((l.map (fun x => (f x, val x))).filter (fun p => p.1 != "")).filter
        (fun p => p.1 == k)).map Prod.snd =
      (l.filter (fun x => f x == k)).map val := by
  rw [List.filter_filter]
  induction l with
  | nil => rfl
  | cons x xs ih =>
    simp only [List.map_cons, List.filter_cons]
    by_cases h : (f x == k) = true
    · have he : f x = k := by simpa using h
      simp [he, hk, h, ih]
    · simp [h, ih]

theorem chronicVocabularyGaps_sound (ms : List VocabMistake) (e : VocabGap)
    (he : e ∈ chronicVocabularyGaps ms) :
    e.word ≠ "" ∧ e.frequency = (ms.map (·.word)).count e.word ∧
    2 ≤ e.frequency ∧ e.priority = priorityFor e.frequency := by
  unfold chronicVocabularyGaps at he
  simp only [List.mem_filterMap] at he
  obtain ⟨⟨k, n⟩, hmem, hf⟩ := he
  rw [mem_countsOf] at hmem
  obtain ⟨hkmem, hcnt⟩ := hmem
  by_cases h2 : 2 ≤ n
  · rw [if_pos h2] at hf
    obtain rfl := Option.some.inj hf
    have hkne : k ≠ "" := by
      have := (List.mem_filter.mp hkmem).2
      simpa using this
    refine ⟨hkne, ?_, h2, rfl⟩
    rw [hcnt]
    exact count_filter_nonempty _ _ hkne
  · rw [if_neg h2] at hf
    cases hf

theorem chronicVocabularyGaps_complete (ms : List VocabMistake) (k : String)
    (hk : k ≠ "") (hc : 2 ≤ (ms.map (·.word)).count k) :
    ∃ e ∈ chronicVocabularyGaps ms, e.word = k ∧
      e.frequency = (ms.map (·.word)).count k := by
  have hmemmap : k ∈ ms.map (·.word) :=
    List.count_pos_iff.mp (Nat.lt_of_lt_of_le (by norm_num) hc)
  have hcnt : ((ms.map (·.word)).filter (fun w => w != "")).count k =
      (ms.map (·.word)).count k := count_filter_nonempty _ _ hk
  have hmemf : k ∈ (ms.map (·.word)).filter (fun w => w != "") :=
    List.mem_filter.mpr ⟨hmemmap, by simpa using hk⟩
  have h2 : 2 ≤ ((ms.map (·.word)).filter (fun w => w != "")).count k := by
    rw [hcnt]; exact hc
  refine ⟨⟨k, ((ms.map (·.word)).filter (fun w => w != "")).count k,
      priorityFor (((ms.map (·.word)).filter (fun w => w != "")).count k)⟩, ?_, rfl, hcnt⟩
  unfold chronicVocabularyGaps
  simp only [List.mem_filterMap]
  refine ⟨(k, ((ms.map (·.word)).filter (fun w => w != "")).count k), ?_, ?_⟩
  · exact (mem_countsOf _ _ _).mpr ⟨hmemf, rfl⟩
  · rw [if_pos h2]

theorem chronicWordsOf_sound (ws : List MispronouncedWord) (e : ChronicWord)
    (he : e ∈ chronicWordsOf ws) :
    e.word ≠ "" ∧
    e.frequency = (ws.map (fun w => lowerString w.word)).count e.word ∧
    2 ≤ e.frequency ∧
    e.avg_accuracy =
      ((ws.filter (fun w => lowerString w.word == e.word)).map (·.accuracy)).sum /
        (e.frequency : ℚ) ∧
    e.priority = priorityFor e.frequency := by
  unfold chronicWordsOf at he
  simp only [List.mem_filterMap] at he
  obtain ⟨⟨k, g⟩, hmem, hf⟩ := he
  rw [mem_groupPairs] at hmem
  obtain ⟨hkmem, hg⟩ := hmem
  have hkne : k ≠ "" := by
    rcases List.mem_map.mp hkmem with ⟨p, hp, rfl⟩
    have := (List.mem_filter.mp hp).2
    simpa using this
  have hgeq : g = (ws.filter (fun w => lowerString w.word == k)).map (·.accuracy) := by
    rw [hg]
    exact group_values_eq (fun w => lowerString w.word) (fun w => w.accuracy) ws k hkne
  by_cases h2 : 2 ≤ g.length
  · rw [if_pos h2] at hf
    obtain rfl := Option.some.inj hf
    refine ⟨hkne, ?_, h2, ?_, rfl⟩
    · rw [count_map_eq_length_filter, hgeq, List.length_map]
    · simp [avgOf, hgeq]
  · rw [if_neg h2] at hf
    cases hf

theorem chronicWordsOf_complete (ws : List MispronouncedWord) (k : String)
    (hk : k ≠ "") (hc : 2 ≤ (ws.map (fun w => lowerString w.word)).count k) :
    ∃ e ∈ chronicWordsOf ws, e.word = k ∧
      e.frequency = (ws.map (fun w => lowerString w.word)).count k := by
  have hmemmap : k ∈ ws.map (fun w => lowerString w.word) :=
    List.count_pos_iff.mp (Nat.lt_of_lt_of_le (by norm_num) hc)
  have hkmem : k ∈ ((ws.map (fun w => (lowerString w.word, w.accuracy))).filter
      (fun p => p.1 != "")).map Prod.fst := by
    rcases List.mem_map.mp hmemmap with ⟨w, hw, rfl⟩
    refine List.mem_map.mpr ⟨(lowerString w.word, w.accuracy), ?_, rfl⟩
    exact List.mem_filter.mpr ⟨List.mem_map.mpr ⟨w, hw, rfl⟩, by simpa using hk⟩
  have hgmem : (k, (((ws.map (fun w => (lowerString w.word, w.accuracy))).filter
        (fun p => p.1 != "")).filter (fun p => p.1 == k)).map Prod.snd) ∈
      groupPairs ((ws.map (fun w => (lowerString w.word, w.accuracy))).filter
        (fun p => p.1 != "")) :=
    (mem_groupPairs _ _ _).mpr ⟨hkmem, rfl⟩
  have hgeq : (((ws.map (fun w => (lowerString w.word, w.accuracy))).filter
        (fun p => p.1 != "")).filter (fun p => p.1 == k)).map Prod.snd =
      (ws.filter (fun w => lowerString w.word == k)).map (·.accuracy) :=
    group_values_eq (fun w => lowerString w.word) (fun w => w.accuracy) ws k hk
  have hlen : ((((ws.map (fun w => (lowerString w.word, w.accuracy))).filter
        (fun p => p.1 != "")).filter (fun p => p.1 == k)).map Prod.snd).length =
      (ws.map (fun w => lowerString w.word)).count k := by
    rw [count_map_eq_length_filter, hgeq, List.length_map]
  have h2 : 2 ≤ ((((ws.map (fun w => (lowerString w.word, w.accuracy))).filter
        (fun p => p.1 != "")).filter (fun p => p.1 == k)).map Prod.snd).length := by
    rw [hlen]; exact hc
  refine ⟨⟨k,
      ((((ws.map (fun w => (lowerString w.word, w.accuracy))).filter
        (fun p => p.1 != "")).filter (fun p => p.1 == k)).map Prod.snd).length,
      avgOf ((((ws.map (fun w => (lowerString w.word, w.accuracy))).filter
        (fun p => p.1 != "")).filter (fun p => p.1 == k)).map Prod.snd),
      priorityFor ((((ws.map (fun w => (lowerString w.word, w.accuracy))).filter
        (fun p => p.1 != "")).filter (fun p => p.1 == k)).map Prod.snd).length⟩,
    ?_, rfl, hlen⟩
  unfold chronicWordsOf
  simp only [List.mem_filterMap]
  exact ⟨(k, (((ws.map (fun w => (lowerString w.word, w.accuracy))).filter
      (fun p => p.1 != "")).filter (fun p => p.1 == k)).map Prod.snd), hgmem,
    by rw [if_pos h2]⟩

theorem convChronicVocabGapsOf_sound (gs : List ConvVocabGap) (e : ConvChronicVocabGap)
    (he : e ∈ convChronicVocabGapsOf gs) :
    e.word ≠ "" ∧ e.frequency = (gs.map (·.word)).count e.word ∧
    1 ≤ e.frequency ∧ e.priority = convPriority2 e.frequency := by
  unfold convChronicVocabGapsOf at he
  simp only [List.mem_filterMap] at he
  obtain ⟨⟨k, g⟩, hmem, hf⟩ := he
  rw [mem_groupPairs] at hmem
  obtain ⟨hkmem, hg⟩ := hmem
  have hkne : k ≠ "" := by
    rcases List.mem_map.mp hkmem with ⟨p, hp, rfl⟩
    have := (List.mem_filter.mp hp).2
    simpa using this
  have hgeq : g = (gs.filter (fun x => x.word == k)).map (fun x => x) := by
    rw [hg]
    exact group_values_eq (fun x => x.word) (fun x => x) gs k hkne
  by_cases h1 : 1 ≤ g.length
  · rw [if_pos h1] at hf
    obtain rfl := Option.some.inj hf
    refine ⟨hkne, ?_, h1, rfl⟩
    rw [count_map_eq_length_filter, hgeq, List.length_map]
  · rw [if_neg h1] at hf
    cases hf

theorem convChronicVocabGapsOf_complete (gs : List ConvVocabGap) (k : String)
    (hk : k ≠ "") (hc : 1 ≤ (gs.map (·.word)).count k) :
    ∃ e ∈ convChronicVocabGapsOf gs, e.word = k ∧
      e.frequency = (gs.map (·.word)).count k := by
  have hmemmap : k ∈ gs.map (·.word) :=
    List.count_pos_iff.mp (Nat.lt_of_lt_of_le (by norm_num) hc)
  have hkmem : k ∈ ((gs.map (fun x => (x.word, x))).filter (fun p => p.1 != "")).map
      Prod.fst := by
    rcases List.mem_map.mp hmemmap with ⟨w, hw, rfl⟩
    refine List.mem_map.mpr ⟨(w.word, w), ?_, rfl⟩
    exact List.mem_filter.mpr ⟨List.mem_map.mpr ⟨w, hw, rfl⟩, by simpa using hk⟩
  have hgmem : (k, (((gs.map (fun x => (x.word, x))).filter (fun p => p.1 != "")).filter
        (fun p => p.1 == k)).map Prod.snd) ∈
      groupPairs ((gs.map (fun x => (x.word, x))).filter (fun p => p.1 != "")) :=
    (mem_groupPairs _ _ _).mpr ⟨hkmem, rfl⟩
  have hgeq : (((gs.map (fun x => (x.word, x))).filter (fun p => p.1 != "")).filter
        (fun p => p.1 == k)).map Prod.snd =
      (gs.filter (fun x => x.word == k)).map (fun x => x) :=
    group_values_eq (fun x => x.word) (fun x => x) gs k hk
  have hlen : ((((gs.map (fun x => (x.word, x))).filter (fun p => p.1 != "")).filter
        (fun p => p.1 == k)).map Prod.snd).length = (gs.map (·.word)).count k := by
    rw [count_map_eq_length_filter, hgeq, List.length_map]
  have h1 : 1 ≤ ((((gs.map (fun x => (x.word, x))).filter (fun p => p.1 != "")).filter
        (fun p => p.1 == k)).map Prod.snd).length := by
    rw [hlen]; exact hc
  refine ⟨⟨k,
      ((((gs.map (fun x => (x.word, x))).filter (fun p => p.1 != "")).filter
        (fun p => p.1 == k)).map Prod.snd).length,
      ((((((gs.map (fun x => (x.word, x))).filter (fun p => p.1 != "")).filter
        (fun p => p.1 == k)).map Prod.snd).take 2).filter
          (fun x => x.context != "")).map (·.context),
      convPriority2 ((((gs.map (fun x => (x.word, x))).filter (fun p => p.1 != "")).filter
        (fun p => p.1 == k)).map Prod.snd).length⟩,
    ?_, rfl, hlen⟩
  unfold convChronicVocabGapsOf
  simp only [List.mem_filterMap]
  exact ⟨(k, (((gs.map (fun x => (x.word, x))).filter (fun p => p.1 != "")).filter
      (fun p => p.1 == k)).map Prod.snd), hgmem, by rw [if_pos h1]⟩

theorem lowerString_comfortable : lowerString "comfortable" = "comfortable" := by decide

theorem lowerString_world : lowerString "world" = "world" := by decide

theorem beq_world_comfortable : ("world" == "comfortable") = false := by decide

theorem beq_comfortable_world : ("comfortable" == "world") = false := by decide

theorem beq_comfortable_self : ("comfortable" == "comfortable") = true := by decide

theorem beq_world_self : ("world" == "world") = true := by decide

/-- C3 counterexample: on the specified five-insight scenario the stored
average accuracy of the word comfortable is the exact mean 193 / 3 of the
scores 60, 65 and 68, not the value 64.3 the claim demands, so the claimed
chronic pronunciation list is not the one returned. -/
theorem C3_speaking_scenario_counterexample :
    ¬ ((compressSpeakingMemory false .failure 100 speakingScenarioState).1.map
        (fun p => p.chronic_pronunciation_errors) =
      some [⟨"comfortable", 3, (64.3 : ℚ), "high"⟩, ⟨"world", 2, 81, "medium"⟩]) := by
  norm_num [compressSpeakingMemory, buildSpeakingPayload, speakingScenarioState, freshState,
    newestFirst, uncompressed, chronicWordsOf, problemPhonemesOf, fluencyPatternsOf,
    groupPairs, distinctKeys, countsOf, avgOf, priorityFor, summaryField,
    lowerString_comfortable, lowerString_world, beq_world_comfortable, beq_comfortable_world,
    beq_comfortable_self, beq_world_self, List.filter, List.count, List.foldl, List.filterMap]

/-- C3 amended: on the specified scenario the run with the AI step disabled
returns the payload whose chronic pronunciation list is comfortable with
frequency 3, average accuracy 193 / 3 (about 64.33 — the code stores the
exact mean, it does not round to one decimal) and priority high, then world
with frequency 2, average accuracy 81 and priority medium, with
total_sessions_analyzed five and a null summary, and afterwards all five
insights are flagged compressed. -/
theorem C3_speaking_scenario_amended :
    (compressSpeakingMemory false .failure 100 speakingScenarioState).1 =
      some { chronic_pronunciation_errors :=
               [⟨"comfortable", 3, 193 / 3, "high"⟩, ⟨"world", 2, 81, "medium"⟩]
             problem_phonemes := []
             fluency_patterns := []
             total_sessions_analyzed := 5
             last_compressed_at := 100
             summary := none } ∧
    ∀ i ∈ (compressSpeakingMemory false .failure 100 speakingScenarioState).2.speakingInsights,
      i.is_compressed = true := by
  constructor
  · norm_num [compressSpeakingMemory, buildSpeakingPayload, speakingScenarioState, freshState,
      newestFirst, uncompressed, chronicWordsOf, problemPhonemesOf, fluencyPatternsOf,
      groupPairs, distinctKeys, countsOf, avgOf, priorityFor, summaryField,
      lowerString_comfortable, lowerString_world, beq_world_comfortable, beq_comfortable_world,
      beq_comfortable_self, beq_world_self, List.filter, List.count, List.foldl,
      List.filterMap]
  · decide

/-- C1 counterexample: the chronic frequency is the count of occurrences
over the flattened lists, not the count of insights containing the key, and
the conversation vocabulary gap list neither excludes frequency-one keys nor
waits for frequency three before the high priority.  Concretely: one
reading insight whose mistake list holds the same word twice makes the
chronic list include that word with frequency 2 (the claim would exclude it,
as it appears in only one insight); one conversation insight with a single
gap word already yields a chronic entry of frequency 1 (the claim excludes
frequency 1); two conversation insights with the same gap word yield
priority high at frequency 2 (the claim demands medium). -/
theorem C1_chronic_frequency_counterexample :
    ((compressReadingMemory false .failure 9 dupWordReadingState).1.map
        (fun p => p.vocabulary_gaps) = some [⟨"cat", 2, "medium"⟩]) ∧
    ((compressConversationMemory false .failure 9 singleGapConversationState).1.map
        (fun p => p.vocabulary_gaps) = some [⟨"dog", 1, ["ctx"], "medium"⟩]) ∧
    ((compressConversationMemory false .failure 9 doubleGapConversationState).1.map
        (fun p => p.vocabulary_gaps) = some [⟨"dog", 2, ["c2", "c1"], "high"⟩]) := by
  refine ⟨?_, ?_, ?_⟩ <;> decide

/-- C1 amended: for the reading vocabulary gap aggregator each entry carries
a nonempty word whose frequency is the number of occurrences of the word
across the flattened mistake lists of the consumed insights (occurrences
inside one insight each count), entries exist exactly for words occurring at
least twice, and priority is high from three occurrences; the speaking
chronic word aggregator behaves the same over lowercased words and
additionally stores the exact mean of the accuracy scores of the
occurrences; the conversation vocabulary gap aggregator keeps every word
occurring at least once and assigns high priority already at two
occurrences. -/
theorem C1_chronic_frequency_amended (ms : List VocabMistake) (ws : List MispronouncedWord)
    (gs : List ConvVocabGap) :
    ((∀ e ∈ chronicVocabularyGaps ms,
        e.word ≠ "" ∧ e.frequency = (ms.map (·.word)).count e.word ∧
        2 ≤ e.frequency ∧ e.priority = priorityFor e.frequency) ∧
     (∀ k : String, k ≠ "" → 2 ≤ (ms.map (·.word)).count k →
        ∃ e ∈ chronicVocabularyGaps ms, e.word = k ∧
          e.frequency = (ms.map (·.word)).count k)) ∧
    ((∀ e ∈ chronicWordsOf ws,
        e.word ≠ "" ∧
        e.frequency = (ws.map (fun w => lowerString w.word)).count e.word ∧
        2 ≤ e.frequency ∧
        e.avg_accuracy =
          ((ws.filter (fun w => lowerString w.word == e.word)).map (·.accuracy)).sum /
            (e.frequency : ℚ) ∧
        e.priority = priorityFor e.frequency) ∧
     (∀ k : String, k ≠ "" → 2 ≤ (ws.map (fun w => lowerString w.word)).count k →
        ∃ e ∈ chronicWordsOf ws, e.word = k ∧
          e.frequency = (ws.map (fun w => lowerString w.word)).count k)) ∧
    ((∀ e ∈ convChronicVocabGapsOf gs,
        e.word ≠ "" ∧ e.frequency = (gs.map (·.word)).count e.word ∧
        1 ≤ e.frequency ∧ e.priority = convPriority2 e.frequency) ∧
     (∀ k : String, k ≠ "" → 1 ≤ (gs.map (·.word)).count k →
        ∃ e ∈ convChronicVocabGapsOf gs, e.word = k ∧
          e.frequency = (gs.map (·.word)).count k)) :=
  ⟨⟨fun e he => chronicVocabularyGaps_sound ms e he,
    fun k hk hc => chronicVocabularyGaps_complete ms k hk hc⟩,
   ⟨fun e he => chronicWordsOf_sound ws e he,
    fun k hk hc => chronicWordsOf_complete ws k hk hc⟩,
   ⟨fun e he => convChronicVocabGapsOf_sound gs e he,
    fun k hk hc => convChronicVocabGapsOf_complete gs k hk hc⟩⟩

/-- Witness for C1 on concrete lists: the doubled word of one reading
insight is a chronic entry, and a single conversation gap word is already a
chronic entry. -/
theorem C1_chronic_frequency_witness :
    (∃ e ∈ chronicVocabularyGaps [⟨"cat", none, 1⟩, ⟨"cat", none, 2⟩], e.word = "cat" ∧
      e.frequency = (([⟨"cat", none, 1⟩, ⟨"cat", none, 2⟩] : List VocabMistake).map
        (·.word)).count "cat") ∧
    (∃ e ∈ convChronicVocabGapsOf [⟨"dog", "ctx"⟩], e.word = "dog" ∧
      e.frequency = (([⟨"dog", "ctx"⟩] : List ConvVocabGap).map (·.word)).count "dog") :=
  ⟨(C1_chronic_frequency_amended [⟨"cat", none, 1⟩, ⟨"cat", none, 2⟩] [] []).1.2 "cat"
      (by decide) (by decide),
   (C1_chronic_frequency_amended [] [] [⟨"dog", "ctx"⟩]).2.2.2 "dog"
      (by decide) (by decide)⟩

end AvatarEdu
